import Mathlib

/-!
# Peripheral HIDS sample: connection table, pairing queue, advertising, buttons, reports

A shallow embedding of `src/peripheral_hids/src/main.c`.

* The global variables of the program (`conn_mode`, `is_adv_running`, `bonds_queue`,
  `mitm_queue`, `start`) are the fields of `State`; every C function is a function
  `State → State`.
* `struct bt_conn *` is a natural number (an address), `NULL` is `0`.
* The array `conn_mode[CONFIG_BT_HIDS_MAX_CLIENT_COUNT]` is a list with one element per slot,
  in index order.  A `for` loop that scans the slots and stops at the first hit is
  `List.findIdx`: the first index at which the test holds, or the number of slots when the
  loop runs to its end.  An assignment to `conn_mode[i]` is an indexed write.
* A Zephyr message queue (`K_MSGQ_DEFINE`) is the list of its messages, oldest first,
  together with its capacity `max_msgs`; all calls in the program use `K_NO_WAIT`.
* Calls that leave the program (Bluetooth stack, HID service, work queue) are appended to
  `State.calls` in the order the program makes them.  Values that the stack returns are
  arguments of the embedded function.  `printk` and `LOG_INF` output is not recorded.
-/

namespace PeripheralHids

/-! ## Data model -/

/-- A `struct bt_conn *`. -/
abbrev bt_conn := Nat

/-- The null pointer. -/
def NULL : bt_conn := 0

/-- A `bt_addr_le_t`, compared with `bt_addr_le_cmp`. -/
abbrev bt_addr_le_t := Nat

/-- One element of `conn_mode[]` (`struct conn_mode`). -/
structure conn_mode_t where
  conn : bt_conn
  in_boot_mode : Bool
deriving DecidableEq, Repr

/-- One message of `mitm_queue` (`struct pairing_data_mitm`). -/
structure pairing_data_mitm where
  conn : bt_conn
  passkey : Nat
deriving DecidableEq, Repr

/-- The two work items of the program. -/
inductive k_work where
  | adv_work
  | pairing_work
deriving DecidableEq, Repr

/-- The values of `enum bt_hids_pm_evt` that `hids_pm_evt_handler` tells apart: its two
`case` labels, and any other value (the `default` label). -/
inductive bt_hids_pm_evt where
  | BT_HIDS_PM_EVT_BOOT_MODE_ENTERED
  | BT_HIDS_PM_EVT_REPORT_MODE_ENTERED
  | other (raw : Nat)
deriving DecidableEq, Repr

/-- The two parameter sets with which the program calls `bt_le_adv_start`:
`BT_LE_ADV_CONN_DIR(&addr)` with `BT_LE_ADV_OPT_DIR_ADDR_RPA` and no data (directed at
`addr`), and `BT_LE_ADV_CONN` with `BT_LE_ADV_OPT_ONE_TIME` and the data `ad`, `sd`
(undirected). -/
inductive adv_param where
  | BT_LE_ADV_CONN_DIR (addr : bt_addr_le_t)
  | BT_LE_ADV_CONN
deriving DecidableEq, Repr

/-- A call made by the program to one of its collaborators. -/
inductive Call where
  | bt_conn_ref (conn : bt_conn)
  | bt_conn_unref (conn : bt_conn)
  | bt_conn_auth_passkey_confirm (conn : bt_conn)
  | bt_conn_auth_cancel (conn : bt_conn)
  | k_work_submit (work : k_work)
  | bt_hids_connected (conn : bt_conn)
  | bt_hids_disconnected (conn : bt_conn)
  | bt_le_adv_stop
  | bt_le_adv_start (param : adv_param)
  | bt_hids_inp_rep_send (conn : bt_conn) (rep_index : Nat) (rep : List Nat)
deriving DecidableEq, Repr

/-- The global variables of `main.c`, and the calls made so far. -/
structure State where
  conn_mode : List conn_mode_t
  is_adv_running : Bool
  bonds_queue : List bt_addr_le_t
  mitm_queue : List pairing_data_mitm
  start : Bool
  calls : List Call
deriving DecidableEq, Repr

/-- The Kconfig options the program is compiled with. -/
structure Kconfig where
  BT_HIDS_MAX_CLIENT_COUNT : Nat
  BT_MAX_PAIRED : Nat
  BT_DIRECTED_ADVERTISING : Bool
deriving DecidableEq, Repr

/-- What the Bluetooth stack knows and the program asks for: the bonds that
`bt_foreach_bond` enumerates, in its order, and the peer address of a connection. -/
structure Stack where
  bonds : List bt_addr_le_t
  bt_conn_get_dst : bt_conn → bt_addr_le_t

/-- HCI error code "Advertising Timeout" (`zephyr/bluetooth/hci_types.h`). -/
def BT_HCI_ERR_ADV_TIMEOUT : Nat := 0x3c

/-- Record a call. -/
def emit (c : Call) (s : State) : State :=
  { s with calls := s.calls ++ [c] }

/-! ## Zephyr message queues, with `K_NO_WAIT` -/

/-- Zephyr `k_msgq_put`: appends the message, or fails (`-ENOMSG`) when the queue is full. -/
def k_msgq_put {α : Type} (max_msgs : Nat) (q : List α) (data : α) : Option (List α) :=
  if q.length < max_msgs then some (q ++ [data]) else none

/-- Zephyr `k_msgq_get`: removes and returns the oldest message, or fails when the queue is
empty. -/
def k_msgq_get {α : Type} (q : List α) : Option (α × List α) :=
  match q with
  | [] => none
  | data :: rest => some (data, rest)

/-- Zephyr `k_msgq_peek`: returns the oldest message and keeps it, or fails when the queue
is empty. -/
def k_msgq_peek {α : Type} (q : List α) : Option α :=
  q.head?

/-- Zephyr `k_msgq_num_used_get`: the number of messages in the queue. -/
def k_msgq_num_used_get {α : Type} (q : List α) : Nat :=
  q.length

/-- Zephyr `k_msgq_purge`: discards all messages. -/
def k_msgq_purge {α : Type} (_q : List α) : List α :=
  []

/-! ## Indexed writes to `conn_mode[]` -/

/-- The assignment `conn_mode[i].conn = conn`. -/
def set_conn : List conn_mode_t → Nat → bt_conn → List conn_mode_t
  | [], _, _ => []
  | m :: rest, 0, conn => { m with conn := conn } :: rest
  | m :: rest, i + 1, conn => m :: set_conn rest i conn

/-- The assignment `conn_mode[i].in_boot_mode = b`. -/
def set_in_boot_mode : List conn_mode_t → Nat → Bool → List conn_mode_t
  | [], _, _ => []
  | m :: rest, 0, b => { m with in_boot_mode := b } :: rest
  | m :: rest, i + 1, b => m :: set_in_boot_mode rest i b

/-! ## Advertising: rebuilding the reconnect queue -/

/-- The test of the filter loop of `bond_find` on one slot: the slot is occupied and its peer
address equals the bond's. -/
def bond_find_hit (stk : Stack) (addr : bt_addr_le_t) (m : conn_mode_t) : Bool :=
  decide (m.conn ≠ NULL) && decide (addr = stk.bt_conn_get_dst m.conn)

/-- Source function `bond_find(info, user_data)` with `info->addr = addr`. -/
def bond_find (cfg : Kconfig) (stk : Stack) (addr : bt_addr_le_t) (s : State) : State :=
  if s.conn_mode.findIdx (bond_find_hit stk addr) < s.conn_mode.length then
    s
  else
    match k_msgq_put cfg.BT_MAX_PAIRED s.bonds_queue addr with
    | some q => { s with bonds_queue := q }
    | none => s

/-- Zephyr `bt_foreach_bond(BT_ID_DEFAULT, bond_find, NULL)`. -/
def bt_foreach_bond (cfg : Kconfig) (stk : Stack) (s : State) : State :=
  stk.bonds.foldl (fun st addr => bond_find cfg stk addr st) s

/-- Source function `advertising_start()`. -/
def advertising_start (cfg : Kconfig) (stk : Stack) (s : State) : State :=
  let s1 :=
    if cfg.BT_DIRECTED_ADVERTISING then
      bt_foreach_bond cfg stk { s with bonds_queue := k_msgq_purge s.bonds_queue }
    else
      s
  emit (Call.k_work_submit k_work.adv_work) s1

/-! ## Connection table -/

/-- Source function `insert_conn_object(conn)`. -/
def insert_conn_object (conn : bt_conn) (s : State) : State :=
  let i := s.conn_mode.findIdx (fun m => decide (m.conn = NULL))
  if i < s.conn_mode.length then
    { s with conn_mode := set_in_boot_mode (set_conn s.conn_mode i conn) i false }
  else
    s

/-- Source function `is_conn_slot_free()`. -/
def is_conn_slot_free (s : State) : Bool :=
  decide (s.conn_mode.findIdx (fun m => decide (m.conn = NULL)) < s.conn_mode.length)

/-- Source function `connected(conn, err)`; `hids_ret` is what `bt_hids_connected` returns,
which the program stores in the `uint8_t err`. -/
def connected (cfg : Kconfig) (stk : Stack) (conn : bt_conn) (err : Nat) (hids_ret : Int)
    (s : State) : State :=
  let s1 := { s with is_adv_running := false }
  if err ≠ 0 then
    if err = BT_HCI_ERR_ADV_TIMEOUT then
      emit (Call.k_work_submit k_work.adv_work) s1
    else
      s1
  else
    let s2 := emit (Call.bt_hids_connected conn) s1
    if hids_ret % 256 ≠ 0 then
      s2
    else
      let s3 := insert_conn_object conn s2
      if is_conn_slot_free s3 then
        advertising_start cfg stk s3
      else
        s3

/-- The table update of `disconnected`: the loop that clears the first slot holding `conn`. -/
def disconnected_table (conn : bt_conn) (tbl : List conn_mode_t) : List conn_mode_t :=
  let i := tbl.findIdx (fun m => decide (m.conn = conn))
  if i < tbl.length then
    set_conn tbl i NULL
  else
    tbl

/-- Source function `disconnected(conn, reason)`; the result of `bt_hids_disconnected` is
only printed. -/
def disconnected (cfg : Kconfig) (stk : Stack) (conn : bt_conn) (_reason : Nat)
    (s : State) : State :=
  let s1 := emit (Call.bt_hids_disconnected conn) s
  let s2 := { s1 with conn_mode := disconnected_table conn s1.conn_mode }
  advertising_start cfg stk s2

/-- Source function `hids_pm_evt_handler(evt, conn)`. -/
def hids_pm_evt_handler (evt : bt_hids_pm_evt) (conn : bt_conn) (s : State) : State :=
  let i := s.conn_mode.findIdx (fun m => decide (m.conn = conn))
  if i ≥ s.conn_mode.length then
    s
  else
    match evt with
    | bt_hids_pm_evt.BT_HIDS_PM_EVT_BOOT_MODE_ENTERED =>
      { s with conn_mode := set_in_boot_mode s.conn_mode i true }
    | bt_hids_pm_evt.BT_HIDS_PM_EVT_REPORT_MODE_ENTERED =>
      { s with conn_mode := set_in_boot_mode s.conn_mode i false }
    | bt_hids_pm_evt.other _ => s

/-! ## Pairing queue -/

/-- Source function `pairing_process(work)`: the handler of `pairing_work`.  It changes no
variable; the result is the request whose peer and passkey it prints, if any. -/
def pairing_process (s : State) : Option pairing_data_mitm :=
  match k_msgq_peek s.mitm_queue with
  | none => none
  | some pairing_data => some pairing_data

/-- Source function `auth_passkey_confirm(conn, passkey)`; `bt_conn_ref(conn)` returns `conn`. -/
def auth_passkey_confirm (cfg : Kconfig) (conn : bt_conn) (passkey : Nat)
    (s : State) : State :=
  let s1 := emit (Call.bt_conn_ref conn) s
  let pairing_data : pairing_data_mitm := ⟨conn, passkey⟩
  let s2 :=
    match k_msgq_put cfg.BT_HIDS_MAX_CLIENT_COUNT s1.mitm_queue pairing_data with
    | some q => { s1 with mitm_queue := q }
    | none => s1
  if k_msgq_num_used_get s2.mitm_queue = 1 then
    emit (Call.k_work_submit k_work.pairing_work) s2
  else
    s2

/-- Source function `pairing_failed(conn, reason)`. -/
def pairing_failed (conn : bt_conn) (_reason : Nat) (s : State) : State :=
  match k_msgq_peek s.mitm_queue with
  | none => s
  | some pairing_data =>
    if pairing_data.conn = conn then
      let s1 := emit (Call.bt_conn_unref pairing_data.conn) s
      match k_msgq_get s1.mitm_queue with
      | some (_, q) => { s1 with mitm_queue := q }
      | none => s1
    else
      s

/-- Source function `num_comp_reply(accept)`. -/
def num_comp_reply (accept : Bool) (s : State) : State :=
  match k_msgq_get s.mitm_queue with
  | none => s
  | some (pairing_data, q) =>
    let s1 := { s with mitm_queue := q }
    let conn := pairing_data.conn
    let s2 :=
      if accept then
        emit (Call.bt_conn_auth_passkey_confirm conn) s1
      else
        emit (Call.bt_conn_auth_cancel conn) s1
    let s3 := emit (Call.bt_conn_unref pairing_data.conn) s2
    if k_msgq_num_used_get s3.mitm_queue ≠ 0 then
      emit (Call.k_work_submit k_work.pairing_work) s3
    else
      s3

/-- The state `main` sets up before it enables the stack: every slot empty, no queue entry. -/
def main_init (cfg : Kconfig) : State :=
  { conn_mode := List.replicate cfg.BT_HIDS_MAX_CLIENT_COUNT ⟨NULL, false⟩
    is_adv_running := false
    bonds_queue := []
    mitm_queue := []
    start := false
    calls := [] }

/-! ## Advertising: the work item -/

/-- The part of `advertising_continue()` that comes before its `bt_le_adv_start` call:
the state at that point and the parameters of the call, or no parameters when the function
returns without making the call.  `stop_ret` is what `bt_le_adv_stop` returns. -/
def advertising_continue_prepare (cfg : Kconfig) (stop_ret : Int) (s : State) :
    State × Option adv_param :=
  match (if cfg.BT_DIRECTED_ADVERTISING then k_msgq_get s.bonds_queue else none) with
  | some (addr, q) =>
    let s1 := { s with bonds_queue := q }
    if s1.is_adv_running then
      let s2 := emit Call.bt_le_adv_stop s1
      if stop_ret ≠ 0 then
        (s2, none)
      else
        ({ s2 with is_adv_running := false }, some (adv_param.BT_LE_ADV_CONN_DIR addr))
    else
      (s1, some (adv_param.BT_LE_ADV_CONN_DIR addr))
  | none =>
    if s.is_adv_running then
      (s, none)
    else
      (s, some adv_param.BT_LE_ADV_CONN)

/-- The part of `advertising_continue()` from its `bt_le_adv_start` call on; `start_ret` is
what the call returns. -/
def advertising_continue_start (param : adv_param) (start_ret : Int) (s : State) : State :=
  let s1 := emit (Call.bt_le_adv_start param) s
  if start_ret ≠ 0 then
    s1
  else
    { s1 with is_adv_running := true }

/-- Source function `advertising_continue()`, the handler of `adv_work`
(`advertising_process`). -/
def advertising_continue (cfg : Kconfig) (stop_ret start_ret : Int) (s : State) : State :=
  match advertising_continue_prepare cfg stop_ret s with
  | (s1, none) => s1
  | (s1, some param) => advertising_continue_start param start_ret s1

/-- One `advertising_start()` followed by the run of the work item it submits. -/
def advertising_run (cfg : Kconfig) (stk : Stack) (stop_ret start_ret : Int)
    (s : State) : State :=
  advertising_continue cfg stop_ret start_ret (advertising_start cfg stk s)

/-! ## Buttons -/

/-- Mask of button 1 of the development kit (`dk_buttons_and_leds.h`, `BIT(0)`). -/
def DK_BTN1_MSK : Nat := 1

/-- Mask of button 2 of the development kit (`dk_buttons_and_leds.h`, `BIT(1)`). -/
def DK_BTN2_MSK : Nat := 2

/-- Mask of button 3 of the development kit (`dk_buttons_and_leds.h`, `BIT(2)`). -/
def DK_BTN3_MSK : Nat := 4

/-- Key used to accept a passkey value. -/
def KEY_PAIRING_ACCEPT : Nat := DK_BTN1_MSK

/-- Key used to reject a passkey value. -/
def KEY_PAIRING_REJECT : Nat := DK_BTN2_MSK

/-- Key that sets the `start` flag. -/
def TOGGLE_START : Nat := DK_BTN3_MSK

/-- Source function `button_changed(button_state, has_changed)`; `security_enabled` is
`IS_ENABLED(CONFIG_BT_HIDS_SECURITY_ENABLED)`. -/
def button_changed (security_enabled : Bool) (button_state has_changed : Nat)
    (s : State) : State :=
  let buttons := button_state &&& has_changed
  let after_pairing : State :=
    if buttons &&& TOGGLE_START ≠ 0 then
      { s with start := true }
    else
      s
  if security_enabled = true ∧ k_msgq_num_used_get s.mitm_queue ≠ 0 then
    if buttons &&& KEY_PAIRING_ACCEPT ≠ 0 then
      num_comp_reply true s
    else if buttons &&& KEY_PAIRING_REJECT ≠ 0 then
      num_comp_reply false s
    else
      after_pairing
  else
    after_pairing

/-! ## Reports -/

/-- Length of the input report. -/
def INPUT_REP_BUTTONS_LEN : Nat := 20

/-- Index of the input report. -/
def INPUT_REP_BUTTONS_INDEX : Nat := 0

/-- Source function `send_dummy_mouse_buttons_report(count)`, `count` being a `uint8_t`.
The loop visits the slots in index order; `send_ret i` is what `bt_hids_inp_rep_send`
returns for slot `i`, which the program only logs. -/
def send_dummy_mouse_buttons_report (count : Nat) (_send_ret : Nat → Int)
    (s : State) : State :=
  s.conn_mode.foldl
    (fun st m =>
      if m.conn = NULL then
        st
      else
        emit (Call.bt_hids_inp_rep_send m.conn INPUT_REP_BUTTONS_INDEX
          (List.replicate INPUT_REP_BUTTONS_LEN (count % 256))) st)
    s

/-! ## Runs of calls -/

/-- One `auth_passkey_confirm(conn, passkey)` call per request, in the order of the list. -/
def confirm_all (cfg : Kconfig) (reqs : List pairing_data_mitm) (s : State) : State :=
  reqs.foldl (fun st r => auth_passkey_confirm cfg r.conn r.passkey st) s

/-- One `num_comp_reply(accept)` call per element, in the order of the list. -/
def reply_all (accepts : List Bool) (s : State) : State :=
  accepts.foldl (fun st accept => num_comp_reply accept st) s

/-- The call with which `num_comp_reply(accept)` resolves a request of `conn`. -/
def resolve_call (accept : Bool) (conn : bt_conn) : Call :=
  if accept then Call.bt_conn_auth_passkey_confirm conn else Call.bt_conn_auth_cancel conn

/-- A call on the pairing queue. -/
inductive PairingEvent where
  | auth_passkey_confirm (conn : bt_conn) (passkey : Nat)
  | num_comp_reply (accept : Bool)
  | pairing_failed (conn : bt_conn) (reason : Nat)
deriving DecidableEq, Repr

/-- Make one call on the pairing queue. -/
def pairing_step (cfg : Kconfig) (s : State) (ev : PairingEvent) : State :=
  match ev with
  | PairingEvent.auth_passkey_confirm conn passkey => auth_passkey_confirm cfg conn passkey s
  | PairingEvent.num_comp_reply accept => num_comp_reply accept s
  | PairingEvent.pairing_failed conn reason => pairing_failed conn reason s

/-- Make a sequence of calls on the pairing queue, in order. -/
def pairing_run (cfg : Kconfig) (evs : List PairingEvent) (s : State) : State :=
  evs.foldl (pairing_step cfg) s

/-- A connection event delivered by the stack. -/
inductive ConnEvent where
  | connected (conn : bt_conn) (err : Nat) (hids_ret : Int)
  | disconnected (conn : bt_conn) (reason : Nat)
deriving DecidableEq, Repr

/-- Handle one connection event. -/
def conn_step (cfg : Kconfig) (stk : Stack) (s : State) (ev : ConnEvent) : State :=
  match ev with
  | ConnEvent.connected conn err hids_ret => connected cfg stk conn err hids_ret s
  | ConnEvent.disconnected conn reason => disconnected cfg stk conn reason s

/-- Handle a sequence of connection events, in order. -/
def conn_run (cfg : Kconfig) (stk : Stack) (evs : List ConnEvent) (s : State) : State :=
  evs.foldl (conn_step cfg stk) s

/-- Every `connected` event of the sequence brings a handle that no slot holds at that
moment. -/
def connects_fresh (cfg : Kconfig) (stk : Stack) : State → List ConnEvent → Bool
  | _, [] => true
  | s, ev :: rest =>
    (match ev with
      | ConnEvent.connected conn _ _ => s.conn_mode.all (fun m => decide (m.conn ≠ conn))
      | ConnEvent.disconnected _ _ => true)
    && connects_fresh cfg stk (conn_step cfg stk s ev) rest

/-- No handle other than `NULL` is in two slots. -/
def unique_handles (tbl : List conn_mode_t) : Prop :=
  ∀ (i j : Nat) (mi mj : conn_mode_t), tbl[i]? = some mi → tbl[j]? = some mj →
    mi.conn = mj.conn → mi.conn ≠ NULL → i = j

/-- The number of occupied slots. -/
def occupied (tbl : List conn_mode_t) : Nat :=
  tbl.countP (fun m => decide (m.conn ≠ NULL))

/-- The calls with which a pairing request is answered. -/
def is_pairing_answer (conn : bt_conn) (c : Call) : Bool :=
  decide (c = Call.bt_conn_auth_passkey_confirm conn) || decide (c = Call.bt_conn_auth_cancel conn)

/-- Some occupied slot's peer address is `addr`. -/
def peer_connected (stk : Stack) (tbl : List conn_mode_t) (addr : bt_addr_le_t) : Bool :=
  tbl.any (fun m => decide (m.conn ≠ NULL ∧ stk.bt_conn_get_dst m.conn = addr))

/-- The calls that start advertising. -/
def is_adv_start (c : Call) : Bool :=
  match c with
  | Call.bt_le_adv_start _ => true
  | _ => false

/-- References of `conn` taken with `bt_conn_ref` and not released with `bt_conn_unref` in a
sequence of calls. -/
def refs_held (conn : bt_conn) (calls : List Call) : Int :=
  (calls.count (Call.bt_conn_ref conn) : Int) - (calls.count (Call.bt_conn_unref conn) : Int)

/-- The number of `mitm_queue` entries that hold `conn`. -/
def entries_of (conn : bt_conn) (q : List pairing_data_mitm) : Nat :=
  q.countP (fun e => decide (e.conn = conn))

/-! ## Lemmas on the pairing queue -/

theorem k_msgq_put_of_lt {α : Type} (max_msgs : Nat) (q : List α) (data : α)
    (h : q.length < max_msgs) : k_msgq_put max_msgs q data = some (q ++ [data]) := by
  simp [k_msgq_put, h]

theorem k_msgq_put_of_ge {α : Type} (max_msgs : Nat) (q : List α) (data : α)
    (h : max_msgs ≤ q.length) : k_msgq_put max_msgs q data = none := by
  simp [k_msgq_put, Nat.not_lt.mpr h]

theorem auth_passkey_confirm_queue_of_lt (cfg : Kconfig) (conn : bt_conn) (passkey : Nat)
    (s : State) (h : s.mitm_queue.length < cfg.BT_HIDS_MAX_CLIENT_COUNT) :
    (auth_passkey_confirm cfg conn passkey s).mitm_queue = s.mitm_queue ++ [⟨conn, passkey⟩] := by
  have hput := k_msgq_put_of_lt cfg.BT_HIDS_MAX_CLIENT_COUNT s.mitm_queue
    (⟨conn, passkey⟩ : pairing_data_mitm) h
  simp only [auth_passkey_confirm, emit, hput]
  split <;> rfl

theorem auth_passkey_confirm_queue_of_ge (cfg : Kconfig) (conn : bt_conn) (passkey : Nat)
    (s : State) (h : cfg.BT_HIDS_MAX_CLIENT_COUNT ≤ s.mitm_queue.length) :
    (auth_passkey_confirm cfg conn passkey s).mitm_queue = s.mitm_queue := by
  have hput := k_msgq_put_of_ge cfg.BT_HIDS_MAX_CLIENT_COUNT s.mitm_queue
    (⟨conn, passkey⟩ : pairing_data_mitm) h
  simp only [auth_passkey_confirm, emit, hput]
  split <;> rfl

theorem confirm_all_queue (cfg : Kconfig) (reqs : List pairing_data_mitm) :
    ∀ s : State, s.mitm_queue.length + reqs.length ≤ cfg.BT_HIDS_MAX_CLIENT_COUNT →
      (confirm_all cfg reqs s).mitm_queue = s.mitm_queue ++ reqs := by
  induction reqs with
  | nil => intro s _; simp [confirm_all]
  | cons r rest ih =>
    intro s h
    simp only [List.length_cons] at h
    have hq := auth_passkey_confirm_queue_of_lt cfg r.conn r.passkey s (by omega)
    have hstep := ih (auth_passkey_confirm cfg r.conn r.passkey s)
      (by rw [hq]; simp; omega)
    simp only [confirm_all, List.foldl_cons] at hstep ⊢
    rw [hstep, hq]
    simp

theorem num_comp_reply_nil (accept : Bool) (s : State) (h : s.mitm_queue = []) :
    num_comp_reply accept s = s := by
  simp [num_comp_reply, k_msgq_get, h]

theorem num_comp_reply_cons (accept : Bool) (s : State) (r : pairing_data_mitm)
    (rest : List pairing_data_mitm) (h : s.mitm_queue = r :: rest) :
    num_comp_reply accept s =
      { s with
        mitm_queue := rest
        calls := s.calls ++ [resolve_call accept r.conn, Call.bt_conn_unref r.conn]
          ++ (if rest ≠ [] then [Call.k_work_submit k_work.pairing_work] else []) } := by
  cases accept <;> cases rest <;>
    simp [num_comp_reply, k_msgq_get, h, emit, resolve_call, k_msgq_num_used_get]

theorem reply_all_queue (accepts : List Bool) :
    ∀ s : State, (reply_all accepts s).mitm_queue = s.mitm_queue.drop accepts.length := by
  induction accepts with
  | nil => intro s; simp [reply_all]
  | cons a rest ih =>
    intro s
    have hstep := ih (num_comp_reply a s)
    simp only [reply_all, List.foldl_cons] at hstep ⊢
    rw [hstep]
    cases hq : s.mitm_queue with
    | nil => rw [num_comp_reply_nil a s hq, hq]; simp
    | cons r q => rw [num_comp_reply_cons a s r q hq]; simp

theorem pairing_failed_queue (conn : bt_conn) (reason : Nat) (s : State) :
    (pairing_failed conn reason s).mitm_queue = s.mitm_queue
      ∨ (pairing_failed conn reason s).mitm_queue = s.mitm_queue.tail := by
  cases hq : s.mitm_queue with
  | nil => left; simp [pairing_failed, k_msgq_peek, hq]
  | cons r q =>
    by_cases hc : r.conn = conn
    · right; simp [pairing_failed, k_msgq_peek, k_msgq_get, emit, hq, hc]
    · left; simp [pairing_failed, k_msgq_peek, hq, hc]

theorem pairing_step_length_le (cfg : Kconfig) (s : State) (ev : PairingEvent)
    (h : s.mitm_queue.length ≤ cfg.BT_HIDS_MAX_CLIENT_COUNT) :
    (pairing_step cfg s ev).mitm_queue.length ≤ cfg.BT_HIDS_MAX_CLIENT_COUNT := by
  cases ev with
  | auth_passkey_confirm conn passkey =>
    by_cases hlt : s.mitm_queue.length < cfg.BT_HIDS_MAX_CLIENT_COUNT
    · simp only [pairing_step]
      rw [auth_passkey_confirm_queue_of_lt cfg conn passkey s hlt]
      simp
      omega
    · simp only [pairing_step]
      rw [auth_passkey_confirm_queue_of_ge cfg conn passkey s (Nat.not_lt.mp hlt)]
      exact h
  | num_comp_reply accept =>
    simp only [pairing_step]
    have hq := reply_all_queue [accept] s
    simp only [reply_all, List.foldl_cons, List.foldl_nil] at hq
    rw [hq]
    simp
    omega
  | pairing_failed conn reason =>
    simp only [pairing_step]
    rcases pairing_failed_queue conn reason s with hq | hq
    · rw [hq]; exact h
    · rw [hq]; simp; omega

theorem pairing_run_length_le (cfg : Kconfig) (evs : List PairingEvent) :
    ∀ s : State, s.mitm_queue.length ≤ cfg.BT_HIDS_MAX_CLIENT_COUNT →
      (pairing_run cfg evs s).mitm_queue.length ≤ cfg.BT_HIDS_MAX_CLIENT_COUNT := by
  induction evs with
  | nil => intro s h; simpa [pairing_run] using h
  | cons ev rest ih =>
    intro s h
    have hstep := ih (pairing_step cfg s ev) (pairing_step_length_le cfg s ev h)
    simpa [pairing_run] using hstep

/-! ## Lemmas on the connection table -/

theorem first_hit (p : conn_mode_t → Bool) (tbl : List conn_mode_t) :
    ((∀ m ∈ tbl, p m = false) ∧ tbl.findIdx p = tbl.length)
      ∨ ∃ m, tbl[tbl.findIdx p]? = some m ∧ p m = true ∧ tbl.findIdx p < tbl.length
          ∧ ∀ (j : Nat) (mj : conn_mode_t), j < tbl.findIdx p → tbl[j]? = some mj →
              p mj = false := by
  by_cases hlt : tbl.findIdx p < tbl.length
  · right
    refine ⟨tbl[tbl.findIdx p], List.getElem?_eq_getElem hlt, List.findIdx_getElem, hlt, ?_⟩
    intro j mj hj hmj
    have hnot := List.not_of_lt_findIdx hj
    rcases List.getElem?_eq_some_iff.mp hmj with ⟨_, hget⟩
    rw [← hget]
    exact hnot
  · left
    have heq : tbl.findIdx p = tbl.length :=
      Nat.le_antisymm (List.findIdx_le_length p) (Nat.not_lt.mp hlt)
    exact ⟨List.findIdx_eq_length.mp heq, heq⟩

theorem findIdx_of_first (p : conn_mode_t → Bool) (tbl : List conn_mode_t) (i : Nat)
    (m : conn_mode_t) (hm : tbl[i]? = some m) (hp : p m = true)
    (hbefore : ∀ (j : Nat) (mj : conn_mode_t), j < i → tbl[j]? = some mj → p mj = false) :
    tbl.findIdx p = i := by
  rcases List.getElem?_eq_some_iff.mp hm with ⟨hi, hget⟩
  rw [List.findIdx_eq hi]
  refine ⟨by rw [hget]; exact hp, ?_⟩
  intro j hj
  exact hbefore j _ hj (List.getElem?_eq_getElem (Nat.lt_trans hj hi))

theorem set_conn_eq_set (conn : bt_conn) :
    ∀ (tbl : List conn_mode_t) (i : Nat) (m : conn_mode_t), tbl[i]? = some m →
      set_conn tbl i conn = tbl.set i ⟨conn, m.in_boot_mode⟩ := by
  intro tbl
  induction tbl with
  | nil => intro i m h; simp at h
  | cons x rest ih =>
    intro i m h
    cases i with
    | zero =>
      simp only [List.getElem?_cons_zero, Option.some.injEq] at h
      simp [set_conn, h]
    | succ k =>
      simp only [List.getElem?_cons_succ] at h
      simp [set_conn, ih k m h]

theorem set_in_boot_mode_eq_set (b : Bool) :
    ∀ (tbl : List conn_mode_t) (i : Nat) (m : conn_mode_t), tbl[i]? = some m →
      set_in_boot_mode tbl i b = tbl.set i ⟨m.conn, b⟩ := by
  intro tbl
  induction tbl with
  | nil => intro i m h; simp at h
  | cons x rest ih =>
    intro i m h
    cases i with
    | zero =>
      simp only [List.getElem?_cons_zero, Option.some.injEq] at h
      simp [set_in_boot_mode, h]
    | succ k =>
      simp only [List.getElem?_cons_succ] at h
      simp [set_in_boot_mode, ih k m h]

theorem insert_conn_object_shape (conn : bt_conn) (s : State) :
    ((∀ m ∈ s.conn_mode, m.conn ≠ NULL) ∧ insert_conn_object conn s = s)
      ∨ ∃ (i : Nat) (m : conn_mode_t), s.conn_mode[i]? = some m ∧ m.conn = NULL
          ∧ (∀ (j : Nat) (mj : conn_mode_t), j < i → s.conn_mode[j]? = some mj →
              mj.conn ≠ NULL)
          ∧ insert_conn_object conn s
            = { s with conn_mode := s.conn_mode.set i ⟨conn, false⟩ } := by
  rcases first_hit (fun m => decide (m.conn = NULL)) s.conn_mode with
    ⟨hnone, hidx⟩ | ⟨m, hm, hp, hlt, hbefore⟩
  · left
    refine ⟨fun m hm => by simpa using hnone m hm, ?_⟩
    simp [insert_conn_object, hidx]
  · right
    refine ⟨_, m, hm, by simpa using hp, fun j mj hj hmj => by simpa using hbefore j mj hj hmj,
      ?_⟩
    have h1 := set_conn_eq_set conn s.conn_mode _ m hm
    have h2 := set_in_boot_mode_eq_set false (set_conn s.conn_mode
      (s.conn_mode.findIdx (fun m => decide (m.conn = NULL))) conn)
      (s.conn_mode.findIdx (fun m => decide (m.conn = NULL))) ⟨conn, m.in_boot_mode⟩
      (by rw [h1]; simp [hlt])
    simp only [insert_conn_object, hlt, if_true, h2]
    rw [h1, List.set_set]

theorem disconnected_table_shape (conn : bt_conn) (tbl : List conn_mode_t) :
    ((∀ m ∈ tbl, m.conn ≠ conn) ∧ disconnected_table conn tbl = tbl)
      ∨ ∃ (i : Nat) (m : conn_mode_t), tbl[i]? = some m ∧ m.conn = conn
          ∧ (∀ (j : Nat) (mj : conn_mode_t), j < i → tbl[j]? = some mj → mj.conn ≠ conn)
          ∧ disconnected_table conn tbl = tbl.set i ⟨NULL, m.in_boot_mode⟩ := by
  rcases first_hit (fun m => decide (m.conn = conn)) tbl with
    ⟨hnone, hidx⟩ | ⟨m, hm, hp, hlt, hbefore⟩
  · left
    refine ⟨fun m hm => by simpa using hnone m hm, ?_⟩
    simp [disconnected_table, hidx]
  · right
    refine ⟨_, m, hm, by simpa using hp, fun j mj hj hmj => by simpa using hbefore j mj hj hmj,
      ?_⟩
    simp only [disconnected_table, hlt, if_true]
    exact set_conn_eq_set NULL tbl _ m hm

theorem hids_pm_evt_handler_shape (evt : bt_hids_pm_evt) (conn : bt_conn) (s : State) :
    ((∀ m ∈ s.conn_mode, m.conn ≠ conn) ∧ hids_pm_evt_handler evt conn s = s)
      ∨ ∃ (i : Nat) (m : conn_mode_t), s.conn_mode[i]? = some m ∧ m.conn = conn
          ∧ (∀ (j : Nat) (mj : conn_mode_t), j < i → s.conn_mode[j]? = some mj →
              mj.conn ≠ conn)
          ∧ hids_pm_evt_handler evt conn s =
            match evt with
            | bt_hids_pm_evt.BT_HIDS_PM_EVT_BOOT_MODE_ENTERED =>
              { s with conn_mode := s.conn_mode.set i ⟨m.conn, true⟩ }
            | bt_hids_pm_evt.BT_HIDS_PM_EVT_REPORT_MODE_ENTERED =>
              { s with conn_mode := s.conn_mode.set i ⟨m.conn, false⟩ }
            | bt_hids_pm_evt.other _ => s := by
  rcases first_hit (fun m => decide (m.conn = conn)) s.conn_mode with
    ⟨hnone, hidx⟩ | ⟨m, hm, hp, hlt, hbefore⟩
  · left
    refine ⟨fun m hm => by simpa using hnone m hm, ?_⟩
    simp [hids_pm_evt_handler, hidx]
  · right
    refine ⟨_, m, hm, by simpa using hp, fun j mj hj hmj => by simpa using hbefore j mj hj hmj,
      ?_⟩
    cases evt with
    | BT_HIDS_PM_EVT_BOOT_MODE_ENTERED =>
      simp only [hids_pm_evt_handler, ge_iff_le, Nat.not_le.mpr hlt, if_false]
      rw [set_in_boot_mode_eq_set true s.conn_mode _ m hm]
    | BT_HIDS_PM_EVT_REPORT_MODE_ENTERED =>
      simp only [hids_pm_evt_handler, ge_iff_le, Nat.not_le.mpr hlt, if_false]
      rw [set_in_boot_mode_eq_set false s.conn_mode _ m hm]
    | other raw =>
      simp only [hids_pm_evt_handler, ge_iff_le, Nat.not_le.mpr hlt, if_false]

theorem first_index_unique (q : conn_mode_t → Prop) (tbl : List conn_mode_t) (i k : Nat)
    (m mk : conn_mode_t) (hm : tbl[i]? = some m) (hq : q m)
    (hbefore : ∀ (j : Nat) (mj : conn_mode_t), j < i → tbl[j]? = some mj → ¬ q mj)
    (hmk : tbl[k]? = some mk) (hqk : q mk)
    (hbeforek : ∀ (j : Nat) (mj : conn_mode_t), j < k → tbl[j]? = some mj → ¬ q mj) :
    i = k ∧ m = mk := by
  have hik : i = k := by
    rcases Nat.lt_trichotomy i k with h | h | h
    · exact absurd hq (hbeforek i m h hm)
    · exact h
    · exact absurd hqk (hbefore k mk h hmk)
  subst hik
  rw [hm] at hmk
  exact ⟨rfl, Option.some.inj hmk⟩

theorem getElem?_set_cases (tbl : List conn_mode_t) (i j : Nat) (x mj : conn_mode_t)
    (h : (tbl.set i x)[j]? = some mj) :
    (j = i ∧ mj = x) ∨ (j ≠ i ∧ tbl[j]? = some mj) := by
  by_cases hji : i = j
  · subst hji
    left
    rw [List.getElem?_set_self'] at h
    cases hget : tbl[i]? with
    | none => rw [hget] at h; simp at h
    | some y =>
      rw [hget] at h
      simp at h
      exact ⟨rfl, h.symm⟩
  · right
    rw [List.getElem?_set_ne hji] at h
    exact ⟨fun hc => hji hc.symm, h⟩

theorem unique_handles_set_null (tbl : List conn_mode_t) (i : Nat) (b : Bool)
    (hu : unique_handles tbl) : unique_handles (tbl.set i ⟨NULL, b⟩) := by
  intro a c ma mc ha hc heq hne
  rcases getElem?_set_cases tbl i a _ ma ha with ⟨_, hma⟩ | ⟨_, hma⟩
  · rw [hma] at hne
    exact absurd rfl hne
  · rcases getElem?_set_cases tbl i c _ mc hc with ⟨_, hmc⟩ | ⟨_, hmc⟩
    · rw [hmc] at heq
      exact absurd heq hne
    · exact hu a c ma mc hma hmc heq hne

theorem unique_handles_set_fresh (tbl : List conn_mode_t) (i : Nat) (conn : bt_conn) (b : Bool)
    (hu : unique_handles tbl) (hfresh : ∀ m ∈ tbl, m.conn ≠ conn) :
    unique_handles (tbl.set i ⟨conn, b⟩) := by
  intro a c ma mc ha hc heq hne
  rcases getElem?_set_cases tbl i a _ ma ha with ⟨hai, hma⟩ | ⟨_, hma⟩
  · rcases getElem?_set_cases tbl i c _ mc hc with ⟨hci, _⟩ | ⟨_, hmc⟩
    · rw [hai, hci]
    · rw [hma] at heq
      exact absurd heq.symm (hfresh mc (List.mem_iff_getElem?.mpr ⟨c, hmc⟩))
  · rcases getElem?_set_cases tbl i c _ mc hc with ⟨_, hmc⟩ | ⟨_, hmc⟩
    · rw [hmc] at heq
      exact absurd heq (hfresh ma (List.mem_iff_getElem?.mpr ⟨a, hma⟩))
    · exact hu a c ma mc hma hmc heq hne

/-! ## Lemmas on the event handlers -/

theorem bond_find_shape (cfg : Kconfig) (stk : Stack) (addr : bt_addr_le_t) (s : State) :
    ∃ q, bond_find cfg stk addr s = { s with bonds_queue := q } := by
  unfold bond_find
  split
  · exact ⟨s.bonds_queue, rfl⟩
  · split
    · exact ⟨_, rfl⟩
    · exact ⟨s.bonds_queue, rfl⟩

theorem foldl_bond_find_shape (cfg : Kconfig) (stk : Stack) (bonds : List bt_addr_le_t) :
    ∀ s : State, ∃ q,
      bonds.foldl (fun st addr => bond_find cfg stk addr st) s = { s with bonds_queue := q } := by
  induction bonds with
  | nil => intro s; exact ⟨s.bonds_queue, rfl⟩
  | cons addr rest ih =>
    intro s
    rcases bond_find_shape cfg stk addr s with ⟨q1, h1⟩
    rcases ih (bond_find cfg stk addr s) with ⟨q2, h2⟩
    refine ⟨q2, ?_⟩
    rw [List.foldl_cons, h2, h1]

theorem advertising_start_shape (cfg : Kconfig) (stk : Stack) (s : State) :
    ∃ q, advertising_start cfg stk s =
      { s with
        bonds_queue := q
        calls := s.calls ++ [Call.k_work_submit k_work.adv_work] } := by
  unfold advertising_start
  cases cfg.BT_DIRECTED_ADVERTISING with
  | false => exact ⟨s.bonds_queue, rfl⟩
  | true =>
    rcases foldl_bond_find_shape cfg stk stk.bonds
      { s with bonds_queue := k_msgq_purge s.bonds_queue } with ⟨q, hq⟩
    refine ⟨q, ?_⟩
    simp only [if_true, bt_foreach_bond, hq, emit]

theorem disconnected_shape (cfg : Kconfig) (stk : Stack) (conn : bt_conn) (reason : Nat)
    (s : State) :
    ∃ q, disconnected cfg stk conn reason s =
      { s with
        conn_mode := disconnected_table conn s.conn_mode
        bonds_queue := q
        calls := s.calls
          ++ [Call.bt_hids_disconnected conn, Call.k_work_submit k_work.adv_work] } := by
  rcases advertising_start_shape cfg stk
    { emit (Call.bt_hids_disconnected conn) s with
      conn_mode := disconnected_table conn (emit (Call.bt_hids_disconnected conn) s).conn_mode }
    with ⟨q, hq⟩
  refine ⟨q, ?_⟩
  have hdef : disconnected cfg stk conn reason s = advertising_start cfg stk
      { emit (Call.bt_hids_disconnected conn) s with
        conn_mode := disconnected_table conn
          (emit (Call.bt_hids_disconnected conn) s).conn_mode } := rfl
  rw [hdef, hq]
  simp [emit]

theorem advertising_start_conn_mode (cfg : Kconfig) (stk : Stack) (s : State) :
    (advertising_start cfg stk s).conn_mode = s.conn_mode := by
  rcases advertising_start_shape cfg stk s with ⟨q, hq⟩
  rw [hq]

theorem connected_conn_mode (cfg : Kconfig) (stk : Stack) (conn : bt_conn) (err : Nat)
    (hids_ret : Int) (s : State) :
    (connected cfg stk conn err hids_ret s).conn_mode = s.conn_mode
      ∨ ∃ (i : Nat) (m : conn_mode_t), s.conn_mode[i]? = some m ∧ m.conn = NULL
          ∧ (connected cfg stk conn err hids_ret s).conn_mode
            = s.conn_mode.set i ⟨conn, false⟩ := by
  by_cases herr : err ≠ 0
  · left
    simp only [connected]
    rw [if_pos herr]
    by_cases hto : err = BT_HCI_ERR_ADV_TIMEOUT
    · rw [if_pos hto]; rfl
    · rw [if_neg hto]
  · by_cases hret : hids_ret % 256 ≠ 0
    · left
      simp [connected, herr, hret, emit]
    · have hdef : connected cfg stk conn err hids_ret s =
          if is_conn_slot_free (insert_conn_object conn
              (emit (Call.bt_hids_connected conn) { s with is_adv_running := false })) = true
          then advertising_start cfg stk (insert_conn_object conn
              (emit (Call.bt_hids_connected conn) { s with is_adv_running := false }))
          else insert_conn_object conn
              (emit (Call.bt_hids_connected conn) { s with is_adv_running := false }) := by
        simp only [connected, herr, hret, if_false]
      have hmode : (connected cfg stk conn err hids_ret s).conn_mode =
          (insert_conn_object conn
            (emit (Call.bt_hids_connected conn) { s with is_adv_running := false })).conn_mode := by
        rw [hdef]
        split
        · rw [advertising_start_conn_mode]
        · rfl
      rw [hmode]
      rcases insert_conn_object_shape conn
        (emit (Call.bt_hids_connected conn) { s with is_adv_running := false }) with
        ⟨_, hsame⟩ | ⟨i, m, hm, hnull, _, hins⟩
      · left
        rw [hsame]
        rfl
      · right
        refine ⟨i, m, hm, hnull, ?_⟩
        rw [hins]
        rfl

theorem conn_step_length (cfg : Kconfig) (stk : Stack) (s : State) (ev : ConnEvent) :
    (conn_step cfg stk s ev).conn_mode.length = s.conn_mode.length := by
  cases ev with
  | connected conn err hids_ret =>
    rcases connected_conn_mode cfg stk conn err hids_ret s with h | ⟨i, m, _, _, h⟩
    · simp only [conn_step]; rw [h]
    · simp only [conn_step]; rw [h, List.length_set]
  | disconnected conn reason =>
    rcases disconnected_shape cfg stk conn reason s with ⟨q, hq⟩
    simp only [conn_step]
    rw [hq]
    rcases disconnected_table_shape conn s.conn_mode with ⟨_, h⟩ | ⟨i, m, _, _, _, h⟩
    · simp [h]
    · simp [h]

theorem conn_run_length (cfg : Kconfig) (stk : Stack) (evs : List ConnEvent) :
    ∀ s : State, (conn_run cfg stk evs s).conn_mode.length = s.conn_mode.length := by
  induction evs with
  | nil => intro s; rfl
  | cons ev rest ih =>
    intro s
    have hstep := ih (conn_step cfg stk s ev)
    simp only [conn_run, List.foldl_cons] at hstep ⊢
    rw [hstep, conn_step_length]

theorem conn_step_unique (cfg : Kconfig) (stk : Stack) (s : State) (ev : ConnEvent)
    (hu : unique_handles s.conn_mode)
    (hfresh : connects_fresh cfg stk s [ev] = true) :
    unique_handles (conn_step cfg stk s ev).conn_mode := by
  cases ev with
  | connected conn err hids_ret =>
    simp only [connects_fresh, Bool.and_true, List.all_eq_true, decide_eq_true_eq] at hfresh
    rcases connected_conn_mode cfg stk conn err hids_ret s with h | ⟨i, m, _, _, h⟩
    · simp only [conn_step]; rw [h]; exact hu
    · simp only [conn_step]; rw [h]
      exact unique_handles_set_fresh s.conn_mode i conn false hu hfresh
  | disconnected conn reason =>
    rcases disconnected_shape cfg stk conn reason s with ⟨q, hq⟩
    simp only [conn_step]
    rw [hq]
    rcases disconnected_table_shape conn s.conn_mode with ⟨_, h⟩ | ⟨i, m, _, _, _, h⟩
    · simp only [h]; exact hu
    · simp only [h]; exact unique_handles_set_null s.conn_mode i m.in_boot_mode hu

theorem conn_run_unique (cfg : Kconfig) (stk : Stack) (evs : List ConnEvent) :
    ∀ s : State, unique_handles s.conn_mode → connects_fresh cfg stk s evs = true →
      unique_handles (conn_run cfg stk evs s).conn_mode := by
  induction evs with
  | nil => intro s hu _; exact hu
  | cons ev rest ih =>
    intro s hu hfresh
    simp only [connects_fresh, Bool.and_eq_true] at hfresh
    have hev : connects_fresh cfg stk s [ev] = true := by
      simp only [connects_fresh, Bool.and_true]
      exact hfresh.1
    have hstep := ih (conn_step cfg stk s ev) (conn_step_unique cfg stk s ev hu hev) hfresh.2
    simpa [conn_run] using hstep

theorem main_init_unique (cfg : Kconfig) : unique_handles (main_init cfg).conn_mode := by
  intro i j mi mj hi _ _ hne
  simp only [main_init, List.getElem?_replicate] at hi
  split at hi
  · simp only [Option.some.injEq] at hi
    rw [← hi] at hne
    exact absurd rfl hne
  · simp at hi

theorem auth_passkey_confirm_empty_pos (cfg : Kconfig) (conn : bt_conn) (passkey : Nat)
    (s : State) (hempty : s.mitm_queue = []) (hcap : 0 < cfg.BT_HIDS_MAX_CLIENT_COUNT) :
    auth_passkey_confirm cfg conn passkey s =
      { s with
        mitm_queue := [⟨conn, passkey⟩]
        calls := s.calls ++ [Call.bt_conn_ref conn, Call.k_work_submit k_work.pairing_work] } := by
  simp [auth_passkey_confirm, emit, k_msgq_put, k_msgq_num_used_get, hempty, hcap]

theorem auth_passkey_confirm_empty_zero (cfg : Kconfig) (conn : bt_conn) (passkey : Nat)
    (s : State) (hempty : s.mitm_queue = []) (hcap : cfg.BT_HIDS_MAX_CLIENT_COUNT = 0) :
    auth_passkey_confirm cfg conn passkey s =
      { s with calls := s.calls ++ [Call.bt_conn_ref conn] } := by
  simp [auth_passkey_confirm, emit, k_msgq_put, k_msgq_num_used_get, hempty, hcap]

theorem pairing_failed_head (conn : bt_conn) (reason : Nat) (s : State)
    (r : pairing_data_mitm) (rest : List pairing_data_mitm) (hq : s.mitm_queue = r :: rest)
    (hconn : r.conn = conn) :
    pairing_failed conn reason s =
      { s with mitm_queue := rest, calls := s.calls ++ [Call.bt_conn_unref conn] } := by
  simp [pairing_failed, k_msgq_peek, k_msgq_get, emit, hq, hconn]

theorem disconnected_conn_mode (cfg : Kconfig) (stk : Stack) (conn : bt_conn) (reason : Nat)
    (s : State) :
    (disconnected cfg stk conn reason s).conn_mode = disconnected_table conn s.conn_mode := by
  rcases disconnected_shape cfg stk conn reason s with ⟨q, hq⟩
  rw [hq]

theorem disconnected_table_absent (conn : bt_conn) (tbl : List conn_mode_t)
    (habsent : ∀ m ∈ tbl, m.conn ≠ conn) : disconnected_table conn tbl = tbl := by
  rcases disconnected_table_shape conn tbl with ⟨_, h⟩ | ⟨i, m, hm, hconn, _, _⟩
  · exact h
  · exact absurd hconn (habsent m (List.mem_iff_getElem?.mpr ⟨i, hm⟩))

theorem disconnected_table_single (conn : bt_conn) (tbl : List conn_mode_t) (i : Nat)
    (m : conn_mode_t) (hm : tbl[i]? = some m) (hconn : m.conn = conn)
    (hothers : ∀ (j : Nat) (mj : conn_mode_t), j ≠ i → tbl[j]? = some mj → mj.conn ≠ conn) :
    disconnected_table conn tbl = tbl.set i ⟨NULL, m.in_boot_mode⟩ := by
  rcases disconnected_table_shape conn tbl with ⟨habsent, _⟩ | ⟨k, mk, hmk, hconnk, _, hset⟩
  · exact absurd hconn (habsent m (List.mem_iff_getElem?.mpr ⟨i, hm⟩))
  · have hki : k = i := by
      by_cases hki : k = i
      · exact hki
      · exact absurd hconnk (hothers k mk hki hmk)
    subst hki
    rw [hm] at hmk
    rw [hset, ← Option.some.inj hmk]

theorem map_conn_set_same (tbl : List conn_mode_t) (i : Nat) (m : conn_mode_t) (b : Bool)
    (hm : tbl[i]? = some m) :
    (tbl.set i ⟨m.conn, b⟩).map conn_mode_t.conn = tbl.map conn_mode_t.conn := by
  apply List.ext_getElem?
  intro j
  rw [List.getElem?_map, List.getElem?_map]
  by_cases hji : i = j
  · subst hji
    rw [List.getElem?_set_self', hm]
    rfl
  · rw [List.getElem?_set_ne hji]

theorem occupied_le_length (tbl : List conn_mode_t) : occupied tbl ≤ tbl.length :=
  List.countP_le_length _

theorem auth_passkey_confirm_calls_of_two_le (cfg : Kconfig) (conn : bt_conn) (passkey : Nat)
    (s : State) (hcap : 2 ≤ cfg.BT_HIDS_MAX_CLIENT_COUNT) :
    (auth_passkey_confirm cfg conn passkey s).calls =
      s.calls ++ [Call.bt_conn_ref conn]
        ++ (if s.mitm_queue = [] then [Call.k_work_submit k_work.pairing_work] else []) := by
  cases hq : s.mitm_queue with
  | nil =>
    rw [auth_passkey_confirm_empty_pos cfg conn passkey s hq (by omega)]
    simp
  | cons r q =>
    by_cases hlt : q.length + 1 < cfg.BT_HIDS_MAX_CLIENT_COUNT
    · simp [auth_passkey_confirm, emit, k_msgq_put, k_msgq_num_used_get, hq, hlt]
    · have hne : q ≠ [] := by
        intro hnil
        rw [hnil] at hlt
        simp at hlt
        omega
      simp [auth_passkey_confirm, emit, k_msgq_put, k_msgq_num_used_get, hq, hlt, hne]

/-! ## Lemmas on advertising -/

theorem bond_find_filter_iff (stk : Stack) (addr : bt_addr_le_t) (tbl : List conn_mode_t) :
    tbl.findIdx (bond_find_hit stk addr) < tbl.length ↔ peer_connected stk tbl addr = true := by
  rw [List.findIdx_lt_length]
  simp only [peer_connected, List.any_eq_true, bond_find_hit, Bool.and_eq_true,
    decide_eq_true_eq]
  constructor
  · rintro ⟨m, hm, hnull, haddr⟩
    exact ⟨m, hm, hnull, haddr.symm⟩
  · rintro ⟨m, hm, hnull, haddr⟩
    exact ⟨m, hm, hnull, haddr.symm⟩

theorem bond_find_eq (cfg : Kconfig) (stk : Stack) (addr : bt_addr_le_t) (s : State) :
    bond_find cfg stk addr s =
      { s with
        bonds_queue :=
          if peer_connected stk s.conn_mode addr = true then s.bonds_queue
          else if s.bonds_queue.length < cfg.BT_MAX_PAIRED then s.bonds_queue ++ [addr]
          else s.bonds_queue } := by
  unfold bond_find
  by_cases hhit : peer_connected stk s.conn_mode addr = true
  · rw [if_pos ((bond_find_filter_iff stk addr s.conn_mode).mpr hhit), if_pos hhit]
  · rw [if_neg (fun h => hhit ((bond_find_filter_iff stk addr s.conn_mode).mp h)), if_neg hhit]
    by_cases hlt : s.bonds_queue.length < cfg.BT_MAX_PAIRED
    · simp [k_msgq_put, hlt]
    · simp [k_msgq_put, hlt]

theorem foldl_bond_find_queue (cfg : Kconfig) (stk : Stack) (bonds : List bt_addr_le_t) :
    ∀ s : State, s.bonds_queue.length + bonds.length ≤ cfg.BT_MAX_PAIRED →
      bonds.foldl (fun st addr => bond_find cfg stk addr st) s =
        { s with
          bonds_queue :=
            s.bonds_queue ++ bonds.filter (fun a => !peer_connected stk s.conn_mode a) } := by
  induction bonds with
  | nil => intro s _; simp
  | cons addr rest ih =>
    intro s hlen
    simp only [List.length_cons] at hlen
    rw [List.foldl_cons, bond_find_eq]
    by_cases hhit : peer_connected stk s.conn_mode addr = true
    · rw [if_pos hhit, ih _ (by simp; omega)]
      simp [List.filter_cons, hhit]
    · have hlt : s.bonds_queue.length < cfg.BT_MAX_PAIRED := by omega
      rw [if_neg hhit, if_pos hlt, ih _ (by simp; omega)]
      simp [List.filter_cons, hhit]

theorem foldl_bond_find_congr (cfg : Kconfig) (stk : Stack) (bonds : List bt_addr_le_t) :
    ∀ s t : State, s.conn_mode = t.conn_mode → s.bonds_queue = t.bonds_queue →
      (bonds.foldl (fun st addr => bond_find cfg stk addr st) s).bonds_queue
        = (bonds.foldl (fun st addr => bond_find cfg stk addr st) t).bonds_queue := by
  induction bonds with
  | nil => intro s t _ hq; simpa using hq
  | cons addr rest ih =>
    intro s t hc hq
    rw [List.foldl_cons, List.foldl_cons]
    apply ih
    · rw [bond_find_eq, bond_find_eq]
      exact hc
    · rw [bond_find_eq, bond_find_eq]
      simp only [hc, hq]

theorem advertising_start_queue_congr (cfg : Kconfig) (stk : Stack) (s t : State)
    (hdir : cfg.BT_DIRECTED_ADVERTISING = true) (hc : s.conn_mode = t.conn_mode) :
    (advertising_start cfg stk s).bonds_queue = (advertising_start cfg stk t).bonds_queue := by
  simp only [advertising_start, hdir, if_true, emit, bt_foreach_bond]
  exact foldl_bond_find_congr cfg stk stk.bonds _ _ hc rfl

theorem advertising_start_eq (cfg : Kconfig) (stk : Stack) (s : State) :
    advertising_start cfg stk s =
      { s with
        bonds_queue := (advertising_start cfg stk s).bonds_queue
        calls := s.calls ++ [Call.k_work_submit k_work.adv_work] } := by
  rcases advertising_start_shape cfg stk s with ⟨q, hq⟩
  rw [hq]

theorem advertising_start_queue_off (cfg : Kconfig) (stk : Stack) (s : State)
    (hdir : cfg.BT_DIRECTED_ADVERTISING = false) :
    (advertising_start cfg stk s).bonds_queue = s.bonds_queue := by
  simp [advertising_start, hdir, emit]

theorem advertising_continue_prepare_directed (cfg : Kconfig) (stop_ret : Int) (s : State)
    (a : bt_addr_le_t) (rest : List bt_addr_le_t)
    (hdir : cfg.BT_DIRECTED_ADVERTISING = true) (hq : s.bonds_queue = a :: rest) :
    advertising_continue_prepare cfg stop_ret s =
      if s.is_adv_running = true then
        if stop_ret ≠ 0 then
          ({ s with bonds_queue := rest, calls := s.calls ++ [Call.bt_le_adv_stop] }, none)
        else
          ({ s with
              bonds_queue := rest
              is_adv_running := false
              calls := s.calls ++ [Call.bt_le_adv_stop] },
            some (adv_param.BT_LE_ADV_CONN_DIR a))
      else
        ({ s with bonds_queue := rest }, some (adv_param.BT_LE_ADV_CONN_DIR a)) := by
  simp only [advertising_continue_prepare, hdir, if_true, k_msgq_get, hq, emit]

theorem advertising_continue_prepare_undirected (cfg : Kconfig) (stop_ret : Int) (s : State)
    (h : cfg.BT_DIRECTED_ADVERTISING = false ∨ s.bonds_queue = []) :
    advertising_continue_prepare cfg stop_ret s =
      if s.is_adv_running = true then (s, none) else (s, some adv_param.BT_LE_ADV_CONN) := by
  rcases h with h | h
  · simp [advertising_continue_prepare, h]
  · cases hdir : cfg.BT_DIRECTED_ADVERTISING <;>
      simp [advertising_continue_prepare, hdir, h, k_msgq_get]

theorem advertising_continue_of_prepare (cfg : Kconfig) (stop_ret start_ret : Int) (s s1 : State)
    (o : Option adv_param) (h : advertising_continue_prepare cfg stop_ret s = (s1, o)) :
    advertising_continue cfg stop_ret start_ret s =
      match o with
      | none => s1
      | some param => advertising_continue_start param start_ret s1 := by
  simp only [advertising_continue, h]
  cases o <;> rfl

theorem queue_directed_or_not (cfg : Kconfig) (s : State) :
    (cfg.BT_DIRECTED_ADVERTISING = false ∨ s.bonds_queue = [])
      ∨ ∃ (a : bt_addr_le_t) (rest : List bt_addr_le_t),
          cfg.BT_DIRECTED_ADVERTISING = true ∧ s.bonds_queue = a :: rest := by
  cases hdir : cfg.BT_DIRECTED_ADVERTISING with
  | false => left; left; rfl
  | true =>
    cases hq : s.bonds_queue with
    | nil => left; right; rfl
    | cons a rest => right; exact ⟨a, rest, rfl, rfl⟩

theorem advertising_continue_prepare_cases (cfg : Kconfig) (stop_ret : Int) (s : State) :
    (∃ s1, advertising_continue_prepare cfg stop_ret s = (s1, none)
        ∧ (s1.calls = s.calls ∨ s1.calls = s.calls ++ [Call.bt_le_adv_stop]))
      ∨ ∃ s1 param, advertising_continue_prepare cfg stop_ret s = (s1, some param)
          ∧ s1.is_adv_running = false
          ∧ ((s.is_adv_running = false ∧ s1.calls = s.calls)
            ∨ (s.is_adv_running = true ∧ stop_ret = 0
              ∧ s1.calls = s.calls ++ [Call.bt_le_adv_stop])) := by
  rcases queue_directed_or_not cfg s with h | ⟨a, rest, hdir, hq⟩
  · rw [advertising_continue_prepare_undirected cfg stop_ret s h]
    by_cases hrun : s.is_adv_running = true
    · left
      exact ⟨s, by rw [if_pos hrun], Or.inl rfl⟩
    · right
      have hfalse : s.is_adv_running = false := by simpa using hrun
      exact ⟨s, adv_param.BT_LE_ADV_CONN, by rw [if_neg hrun], hfalse, Or.inl ⟨hfalse, rfl⟩⟩
  · rw [advertising_continue_prepare_directed cfg stop_ret s a rest hdir hq]
    by_cases hrun : s.is_adv_running = true
    · by_cases hstop : stop_ret ≠ 0
      · left
        exact ⟨{ s with bonds_queue := rest, calls := s.calls ++ [Call.bt_le_adv_stop] },
          by rw [if_pos hrun, if_pos hstop], Or.inr rfl⟩
      · right
        have hzero : stop_ret = 0 := by simpa using hstop
        exact ⟨{ s with
            bonds_queue := rest
            is_adv_running := false
            calls := s.calls ++ [Call.bt_le_adv_stop] },
          adv_param.BT_LE_ADV_CONN_DIR a, by rw [if_pos hrun, if_neg hstop], rfl,
          Or.inr ⟨hrun, hzero, rfl⟩⟩
    · right
      have hfalse : s.is_adv_running = false := by simpa using hrun
      exact ⟨{ s with bonds_queue := rest }, adv_param.BT_LE_ADV_CONN_DIR a,
        by rw [if_neg hrun], hfalse, Or.inl ⟨hfalse, rfl⟩⟩

theorem connected_timeout_eq (cfg : Kconfig) (stk : Stack) (conn : bt_conn) (hids_ret : Int)
    (s : State) :
    connected cfg stk conn BT_HCI_ERR_ADV_TIMEOUT hids_ret s =
      { s with
        is_adv_running := false
        calls := s.calls ++ [Call.k_work_submit k_work.adv_work] } := by
  simp [connected, BT_HCI_ERR_ADV_TIMEOUT, emit]

theorem advertising_continue_start_eq (param : adv_param) (start_ret : Int) (s : State) :
    advertising_continue_start param start_ret s =
      { s with
        is_adv_running := if start_ret = 0 then true else s.is_adv_running
        calls := s.calls ++ [Call.bt_le_adv_start param] } := by
  by_cases h : start_ret = 0
  · simp [advertising_continue_start, emit, h]
  · simp [advertising_continue_start, emit, h]

theorem connected_ok_eq (cfg : Kconfig) (stk : Stack) (conn : bt_conn) (s : State) :
    connected cfg stk conn 0 0 s =
      if is_conn_slot_free (insert_conn_object conn
          (emit (Call.bt_hids_connected conn) { s with is_adv_running := false })) = true
      then advertising_start cfg stk (insert_conn_object conn
          (emit (Call.bt_hids_connected conn) { s with is_adv_running := false }))
      else insert_conn_object conn
          (emit (Call.bt_hids_connected conn) { s with is_adv_running := false }) := by
  simp [connected]

theorem insert_conn_object_frame (conn : bt_conn) (s : State) :
    (insert_conn_object conn s).calls = s.calls
      ∧ (insert_conn_object conn s).bonds_queue = s.bonds_queue
      ∧ (insert_conn_object conn s).is_adv_running = s.is_adv_running := by
  rcases insert_conn_object_shape conn s with ⟨_, h⟩ | ⟨i, m, _, _, _, h⟩
  · rw [h]
    exact ⟨rfl, rfl, rfl⟩
  · rw [h]
    exact ⟨rfl, rfl, rfl⟩

theorem insert_conn_object_conn_mode_congr (conn : bt_conn) (s t : State)
    (h : s.conn_mode = t.conn_mode) :
    (insert_conn_object conn s).conn_mode = (insert_conn_object conn t).conn_mode := by
  by_cases hlt : t.conn_mode.findIdx (fun m => decide (m.conn = NULL)) < t.conn_mode.length
  · simp only [insert_conn_object, h, hlt, if_true]
  · simp only [insert_conn_object, h, hlt, if_false]

theorem is_conn_slot_free_iff (s : State) :
    is_conn_slot_free s = true ↔ ∃ m ∈ s.conn_mode, m.conn = NULL := by
  simp [is_conn_slot_free, List.findIdx_lt_length]

theorem is_conn_slot_free_congr (s t : State) (h : s.conn_mode = t.conn_mode) :
    is_conn_slot_free s = is_conn_slot_free t := by
  simp [is_conn_slot_free, h]

/-! ## Lemmas on buttons and reports -/

theorem button_changed_pending (button_state has_changed : Nat) (s : State)
    (hq : s.mitm_queue ≠ []) :
    button_changed true button_state has_changed s =
      if (button_state &&& has_changed) &&& KEY_PAIRING_ACCEPT ≠ 0 then
        num_comp_reply true s
      else if (button_state &&& has_changed) &&& KEY_PAIRING_REJECT ≠ 0 then
        num_comp_reply false s
      else if (button_state &&& has_changed) &&& TOGGLE_START ≠ 0 then
        { s with start := true }
      else
        s := by
  have hused : k_msgq_num_used_get s.mitm_queue ≠ 0 := by
    simpa [k_msgq_num_used_get] using hq
  simp only [button_changed, hused, ne_eq, not_false_eq_true, and_self, if_true]

theorem button_changed_idle (security_enabled : Bool) (button_state has_changed : Nat)
    (s : State) (hq : s.mitm_queue = []) :
    button_changed security_enabled button_state has_changed s =
      if (button_state &&& has_changed) &&& TOGGLE_START ≠ 0 then
        { s with start := true }
      else
        s := by
  simp [button_changed, k_msgq_num_used_get, hq]

theorem send_loop_calls (rep : List Nat) (tbl : List conn_mode_t) :
    ∀ s : State,
      tbl.foldl
          (fun st m =>
            if m.conn = NULL then st
            else emit (Call.bt_hids_inp_rep_send m.conn INPUT_REP_BUTTONS_INDEX rep) st)
          s
        = { s with
            calls := s.calls
              ++ (tbl.filter (fun m => decide (m.conn ≠ NULL))).map
                  (fun m => Call.bt_hids_inp_rep_send m.conn INPUT_REP_BUTTONS_INDEX rep) } := by
  induction tbl with
  | nil => intro s; simp
  | cons m rest ih =>
    intro s
    rw [List.foldl_cons]
    by_cases hnull : m.conn = NULL
    · rw [if_pos hnull, ih]
      simp [List.filter_cons, hnull]
    · rw [if_neg hnull, ih]
      simp [List.filter_cons, hnull, emit]

/-! ## Lemmas on repeated advertising runs -/

theorem advertising_continue_ok_directed (cfg : Kconfig) (s : State) (a : bt_addr_le_t)
    (rest : List bt_addr_le_t) (hdir : cfg.BT_DIRECTED_ADVERTISING = true)
    (hq : s.bonds_queue = a :: rest) :
    advertising_continue cfg 0 0 s =
      { s with
        bonds_queue := rest
        is_adv_running := true
        calls := s.calls ++ (if s.is_adv_running = true then [Call.bt_le_adv_stop] else [])
          ++ [Call.bt_le_adv_start (adv_param.BT_LE_ADV_CONN_DIR a)] } := by
  have hprep := advertising_continue_prepare_directed cfg 0 s a rest hdir hq
  by_cases hrun : s.is_adv_running = true
  · rw [if_pos hrun, if_neg (by simp)] at hprep
    rw [advertising_continue_of_prepare cfg 0 0 s _ _ hprep]
    simp [advertising_continue_start_eq, hrun]
  · rw [if_neg hrun] at hprep
    rw [advertising_continue_of_prepare cfg 0 0 s _ _ hprep]
    simp [advertising_continue_start_eq, hrun]

theorem advertising_continue_ok_undirected (cfg : Kconfig) (s : State)
    (h : cfg.BT_DIRECTED_ADVERTISING = false ∨ s.bonds_queue = []) :
    advertising_continue cfg 0 0 s =
      { s with
        is_adv_running := true
        calls := s.calls
          ++ (if s.is_adv_running = true then []
              else [Call.bt_le_adv_start adv_param.BT_LE_ADV_CONN]) } := by
  have hprep := advertising_continue_prepare_undirected cfg 0 s h
  by_cases hrun : s.is_adv_running = true
  · rw [if_pos hrun] at hprep
    rw [advertising_continue_of_prepare cfg 0 0 s _ _ hprep]
    cases s
    simp_all
  · rw [if_neg hrun] at hprep
    rw [advertising_continue_of_prepare cfg 0 0 s _ _ hprep]
    simp [advertising_continue_start_eq, hrun]

theorem advertising_run_directed (cfg : Kconfig) (stk : Stack) (s : State) (a : bt_addr_le_t)
    (rest : List bt_addr_le_t) (hdir : cfg.BT_DIRECTED_ADVERTISING = true)
    (hq : (advertising_start cfg stk s).bonds_queue = a :: rest) :
    advertising_run cfg stk 0 0 s =
      { s with
        bonds_queue := rest
        is_adv_running := true
        calls := s.calls ++ [Call.k_work_submit k_work.adv_work]
          ++ (if s.is_adv_running = true then [Call.bt_le_adv_stop] else [])
          ++ [Call.bt_le_adv_start (adv_param.BT_LE_ADV_CONN_DIR a)] } := by
  unfold advertising_run
  rw [advertising_continue_ok_directed cfg _ a rest hdir hq]
  rw [advertising_start_eq]

theorem advertising_run_undirected (cfg : Kconfig) (stk : Stack) (s : State)
    (h : cfg.BT_DIRECTED_ADVERTISING = false ∨ (advertising_start cfg stk s).bonds_queue = []) :
    advertising_run cfg stk 0 0 s =
      { s with
        bonds_queue := (advertising_start cfg stk s).bonds_queue
        is_adv_running := true
        calls := s.calls ++ [Call.k_work_submit k_work.adv_work]
          ++ (if s.is_adv_running = true then []
              else [Call.bt_le_adv_start adv_param.BT_LE_ADV_CONN]) } := by
  unfold advertising_run
  rw [advertising_continue_ok_undirected cfg _ h]
  rw [advertising_start_eq]

/-! ## Theorems -/

/-- C1. FIFO law of the pairing queue: after `auth_passkey_confirm` for `n` requests on an
empty `mitm_queue`, with `n` at most `CONFIG_BT_HIDS_MAX_CLIENT_COUNT`, the `i`-th
`num_comp_reply` makes its call on the handle of the `i`-th request (confirm when it
accepts, cancel when it rejects), `pairing_process` then shows request `i+1` (nothing after
the last one), and after `n` replies the queue is empty and nothing is shown. -/
theorem fifo_law (cfg : Kconfig) (reqs : List pairing_data_mitm) (accepts : List Bool)
    (s0 : State) (hempty : s0.mitm_queue = [])
    (hcap : reqs.length ≤ cfg.BT_HIDS_MAX_CLIENT_COUNT)
    (hlen : accepts.length = reqs.length) :
    (∀ (i : Nat) (r : pairing_data_mitm) (accept : Bool),
        reqs[i]? = some r → accepts[i]? = some accept →
        (num_comp_reply accept (reply_all (accepts.take i) (confirm_all cfg reqs s0))).calls =
            (reply_all (accepts.take i) (confirm_all cfg reqs s0)).calls
              ++ [resolve_call accept r.conn, Call.bt_conn_unref r.conn]
              ++ (if i + 1 < reqs.length then [Call.k_work_submit k_work.pairing_work] else [])
          ∧ pairing_process
              (num_comp_reply accept (reply_all (accepts.take i) (confirm_all cfg reqs s0)))
            = reqs[i + 1]?
          ∧ (num_comp_reply accept
              (reply_all (accepts.take i) (confirm_all cfg reqs s0))).mitm_queue
            = reqs.drop (i + 1))
      ∧ (reply_all accepts (confirm_all cfg reqs s0)).mitm_queue = []
      ∧ pairing_process (reply_all accepts (confirm_all cfg reqs s0)) = none := by
  have hq1 : (confirm_all cfg reqs s0).mitm_queue = reqs := by
    rw [confirm_all_queue cfg reqs s0 (by rw [hempty]; simpa using hcap), hempty]
    simp
  refine ⟨?_, ?_, ?_⟩
  · intro i r accept hr ha
    have hi : i < reqs.length := by
      rcases List.getElem?_eq_some_iff.mp hr with ⟨h, _⟩
      exact h
    have hri : reqs[i] = r := by
      rcases List.getElem?_eq_some_iff.mp hr with ⟨_, h⟩
      exact h
    have hbefore : (reply_all (accepts.take i) (confirm_all cfg reqs s0)).mitm_queue
        = r :: reqs.drop (i + 1) := by
      rw [reply_all_queue, hq1, List.length_take, hlen, Nat.min_eq_left (Nat.le_of_lt hi),
        List.drop_eq_getElem_cons hi, hri]
    rw [num_comp_reply_cons accept _ r (reqs.drop (i + 1)) hbefore]
    refine ⟨?_, ?_, rfl⟩
    · by_cases hlt : i + 1 < reqs.length
      · simp [hlt]
      · simp [hlt, Nat.not_lt.mp hlt]
    · simp [pairing_process, k_msgq_peek, List.head?_drop]
      cases hnext : reqs[i + 1]? <;> simp
  · rw [reply_all_queue, hq1, hlen]
    simp
  · have hq : (reply_all accepts (confirm_all cfg reqs s0)).mitm_queue = [] := by
      rw [reply_all_queue, hq1, hlen]
      simp
    simp [pairing_process, k_msgq_peek, hq]

/-- Witness of C1 (Scenario C): passkeys 111111, 222222, 333333 on the handles 1, 2, 3,
capacity 3, three accepts. -/
theorem fifo_law_witness :
    ((main_init ⟨3, 1, true⟩).mitm_queue = []
      ∧ [(⟨1, 111111⟩ : pairing_data_mitm), ⟨2, 222222⟩, ⟨3, 333333⟩].length ≤ 3
      ∧ [true, true, true].length
          = [(⟨1, 111111⟩ : pairing_data_mitm), ⟨2, 222222⟩, ⟨3, 333333⟩].length)
      ∧ (reply_all [true, true, true]
          (confirm_all ⟨3, 1, true⟩ [⟨1, 111111⟩, ⟨2, 222222⟩, ⟨3, 333333⟩]
            (main_init ⟨3, 1, true⟩))).mitm_queue = []
      ∧ (reply_all [true, true, true]
          (confirm_all ⟨3, 1, true⟩ [⟨1, 111111⟩, ⟨2, 222222⟩, ⟨3, 333333⟩]
            (main_init ⟨3, 1, true⟩))).calls
        = [Call.bt_conn_ref 1, Call.k_work_submit k_work.pairing_work,
            Call.bt_conn_ref 2, Call.bt_conn_ref 3,
            Call.bt_conn_auth_passkey_confirm 1, Call.bt_conn_unref 1,
            Call.k_work_submit k_work.pairing_work,
            Call.bt_conn_auth_passkey_confirm 2, Call.bt_conn_unref 2,
            Call.k_work_submit k_work.pairing_work,
            Call.bt_conn_auth_passkey_confirm 3, Call.bt_conn_unref 3] :=
  ⟨⟨rfl, by decide, rfl⟩,
    (fifo_law ⟨3, 1, true⟩ [⟨1, 111111⟩, ⟨2, 222222⟩, ⟨3, 333333⟩] [true, true, true]
      (main_init ⟨3, 1, true⟩) rfl (by decide) rfl).2.1,
    by decide⟩

/-- C2. Bounded pairing queue: after any sequence of `auth_passkey_confirm`,
`num_comp_reply` and `pairing_failed` calls from an empty queue, `mitm_queue` holds at most
`CONFIG_BT_HIDS_MAX_CLIENT_COUNT` entries; and an `auth_passkey_confirm` made when the queue
holds that many entries fails to enqueue (`k_msgq_put` fails) and leaves the entries and
their order as they were. -/
theorem mitm_queue_bounded (cfg : Kconfig) (s0 : State) (hempty : s0.mitm_queue = [])
    (evs : List PairingEvent) :
    (pairing_run cfg evs s0).mitm_queue.length ≤ cfg.BT_HIDS_MAX_CLIENT_COUNT
      ∧ ∀ (conn : bt_conn) (passkey : Nat),
          (pairing_run cfg evs s0).mitm_queue.length = cfg.BT_HIDS_MAX_CLIENT_COUNT →
          k_msgq_put cfg.BT_HIDS_MAX_CLIENT_COUNT (pairing_run cfg evs s0).mitm_queue
              (⟨conn, passkey⟩ : pairing_data_mitm) = none
            ∧ (auth_passkey_confirm cfg conn passkey (pairing_run cfg evs s0)).mitm_queue
              = (pairing_run cfg evs s0).mitm_queue := by
  refine ⟨pairing_run_length_le cfg evs s0 (by simp [hempty]), ?_⟩
  intro conn passkey hfull
  exact ⟨k_msgq_put_of_ge _ _ _ (Nat.le_of_eq hfull.symm),
    auth_passkey_confirm_queue_of_ge cfg conn passkey _ (Nat.le_of_eq hfull.symm)⟩

/-- Witness of C2: capacity 2, three requests; the third finds the queue full. -/
theorem mitm_queue_bounded_witness :
    (main_init ⟨2, 1, true⟩).mitm_queue = []
      ∧ (pairing_run ⟨2, 1, true⟩
          [PairingEvent.auth_passkey_confirm 1 111111,
            PairingEvent.auth_passkey_confirm 2 222222]
          (main_init ⟨2, 1, true⟩)).mitm_queue.length = 2
      ∧ (auth_passkey_confirm ⟨2, 1, true⟩ 3 333333
          (pairing_run ⟨2, 1, true⟩
            [PairingEvent.auth_passkey_confirm 1 111111,
              PairingEvent.auth_passkey_confirm 2 222222]
            (main_init ⟨2, 1, true⟩))).mitm_queue
        = (pairing_run ⟨2, 1, true⟩
            [PairingEvent.auth_passkey_confirm 1 111111,
              PairingEvent.auth_passkey_confirm 2 222222]
            (main_init ⟨2, 1, true⟩)).mitm_queue :=
  ⟨rfl, by decide,
    ((mitm_queue_bounded ⟨2, 1, true⟩ (main_init ⟨2, 1, true⟩) rfl
      [PairingEvent.auth_passkey_confirm 1 111111,
        PairingEvent.auth_passkey_confirm 2 222222]).2 3 333333 (by decide)).2⟩

/-- C3. With `CONFIG_BT_HIDS_MAX_CLIENT_COUNT = 1` and the request of handle 1 queued,
`auth_passkey_confirm(2, 222222)` is dropped (the queue is full and keeps its one entry) and
yet `pairing_work` is submitted: the test `k_msgq_num_used_get(&mitm_queue) == 1` also holds
when nothing was enqueued. -/
theorem auth_passkey_confirm_dropped_submits :
    (auth_passkey_confirm ⟨1, 1, true⟩ 1 111111 (main_init ⟨1, 1, true⟩)).mitm_queue
        = [⟨1, 111111⟩]
      ∧ (auth_passkey_confirm ⟨1, 1, true⟩ 2 222222
          (auth_passkey_confirm ⟨1, 1, true⟩ 1 111111 (main_init ⟨1, 1, true⟩))).mitm_queue
        = [⟨1, 111111⟩]
      ∧ (auth_passkey_confirm ⟨1, 1, true⟩ 2 222222
          (auth_passkey_confirm ⟨1, 1, true⟩ 1 111111 (main_init ⟨1, 1, true⟩))).calls
        = (auth_passkey_confirm ⟨1, 1, true⟩ 1 111111 (main_init ⟨1, 1, true⟩)).calls
          ++ [Call.bt_conn_ref 2, Call.k_work_submit k_work.pairing_work] := by
  decide

/-- C4. Single step of `num_comp_reply(accept)`: on an empty `mitm_queue` the state is
unchanged (no call, no prompt); on a queue with head `r` the state changes only in that the
head is removed, the rest keeping its order, and that the calls made are, in order, the one
answer on the handle of `r` (`bt_conn_auth_passkey_confirm` if `accept`, else
`bt_conn_auth_cancel`), the release of the reference on that handle, and the submission of
`pairing_work` exactly when entries remain. -/
theorem num_comp_reply_contract (accept : Bool) (s : State) :
    (s.mitm_queue = [] → num_comp_reply accept s = s)
      ∧ ∀ (r : pairing_data_mitm) (rest : List pairing_data_mitm), s.mitm_queue = r :: rest →
          num_comp_reply accept s =
              { s with
                mitm_queue := rest
                calls := s.calls
                  ++ [if accept then Call.bt_conn_auth_passkey_confirm r.conn
                      else Call.bt_conn_auth_cancel r.conn,
                    Call.bt_conn_unref r.conn]
                  ++ (if rest ≠ [] then [Call.k_work_submit k_work.pairing_work] else []) }
            ∧ ((num_comp_reply accept s).calls.drop s.calls.length).filter
                  (is_pairing_answer r.conn)
                = [if accept then Call.bt_conn_auth_passkey_confirm r.conn
                    else Call.bt_conn_auth_cancel r.conn]
            ∧ (Call.k_work_submit k_work.pairing_work
                  ∈ (num_comp_reply accept s).calls.drop s.calls.length
                ↔ (num_comp_reply accept s).mitm_queue ≠ []) := by
  refine ⟨num_comp_reply_nil accept s, ?_⟩
  intro r rest hq
  have h := num_comp_reply_cons accept s r rest hq
  rw [h]
  refine ⟨by simp [resolve_call], ?_, ?_⟩
  · cases accept <;> cases rest <;> simp [resolve_call, is_pairing_answer]
  · cases accept <;> cases rest <;> simp [resolve_call]

/-- Witness of C4: two queued requests, the first is rejected. -/
theorem num_comp_reply_contract_witness :
    (confirm_all ⟨2, 1, true⟩ [⟨1, 111111⟩, ⟨2, 222222⟩] (main_init ⟨2, 1, true⟩)).mitm_queue
        = [⟨1, 111111⟩, ⟨2, 222222⟩]
      ∧ num_comp_reply false
          (confirm_all ⟨2, 1, true⟩ [⟨1, 111111⟩, ⟨2, 222222⟩] (main_init ⟨2, 1, true⟩))
        = { conn_mode := [⟨NULL, false⟩, ⟨NULL, false⟩]
            is_adv_running := false
            bonds_queue := []
            mitm_queue := [⟨2, 222222⟩]
            start := false
            calls := [Call.bt_conn_ref 1, Call.k_work_submit k_work.pairing_work,
              Call.bt_conn_ref 2, Call.bt_conn_auth_cancel 1, Call.bt_conn_unref 1,
              Call.k_work_submit k_work.pairing_work] } :=
  ⟨by decide,
    ((num_comp_reply_contract false
      (confirm_all ⟨2, 1, true⟩ [⟨1, 111111⟩, ⟨2, 222222⟩] (main_init ⟨2, 1, true⟩))).2
        ⟨1, 111111⟩ [⟨2, 222222⟩] (by decide)).1.trans (by decide)⟩

/-- C5. With the requests of handles 1 and 2 queued, `pairing_failed(1, reason)` removes the
head and releases its reference without any answer call, the request of handle 2 becomes the
head, and no `pairing_work` is submitted for it, whereas `num_comp_reply` on the same state
does submit it. -/
theorem pairing_failed_head_no_prompt :
    (pairing_failed 1 0
        (confirm_all ⟨2, 1, true⟩ [⟨1, 111111⟩, ⟨2, 222222⟩] (main_init ⟨2, 1, true⟩))).mitm_queue
        = [⟨2, 222222⟩]
      ∧ (pairing_failed 1 0
          (confirm_all ⟨2, 1, true⟩ [⟨1, 111111⟩, ⟨2, 222222⟩] (main_init ⟨2, 1, true⟩))).calls
        = (confirm_all ⟨2, 1, true⟩ [⟨1, 111111⟩, ⟨2, 222222⟩] (main_init ⟨2, 1, true⟩)).calls
          ++ [Call.bt_conn_unref 1]
      ∧ (num_comp_reply false
          (confirm_all ⟨2, 1, true⟩ [⟨1, 111111⟩, ⟨2, 222222⟩] (main_init ⟨2, 1, true⟩))).calls
        = (confirm_all ⟨2, 1, true⟩ [⟨1, 111111⟩, ⟨2, 222222⟩] (main_init ⟨2, 1, true⟩)).calls
          ++ [Call.bt_conn_auth_cancel 1, Call.bt_conn_unref 1,
            Call.k_work_submit k_work.pairing_work] := by
  decide

/-- C6, as stated, fails: after `auth_passkey_confirm(1, 111111)` on an empty queue and
`disconnected(1, reason)`, `mitm_queue` still holds the request of handle 1. -/
theorem disconnected_keeps_request :
    ¬ (∀ e ∈ (disconnected ⟨2, 1, true⟩ ⟨[], fun c => c⟩ 1 0
          (auth_passkey_confirm ⟨2, 1, true⟩ 1 111111 (main_init ⟨2, 1, true⟩))).mitm_queue,
        e.conn ≠ 1) := by
  decide

/-- C6, amended. After `auth_passkey_confirm(H, passkey)` on an empty queue and
`disconnected(H, reason)`, with no `num_comp_reply` in between, `disconnected` has left
`mitm_queue` as it was; the `pairing_failed(H, reason)` callback that follows leaves no entry
in `mitm_queue`; and none of the calls made since the start is
`bt_conn_auth_passkey_confirm(H)` or `bt_conn_auth_cancel(H)`. -/
theorem pairing_failed_purges_disconnected (cfg : Kconfig) (stk : Stack) (H : bt_conn)
    (passkey reason reason2 : Nat) (s : State) (hempty : s.mitm_queue = []) :
    (disconnected cfg stk H reason (auth_passkey_confirm cfg H passkey s)).mitm_queue
        = (auth_passkey_confirm cfg H passkey s).mitm_queue
      ∧ (pairing_failed H reason2
          (disconnected cfg stk H reason (auth_passkey_confirm cfg H passkey s))).mitm_queue = []
      ∧ ∃ new : List Call,
          (pairing_failed H reason2
            (disconnected cfg stk H reason (auth_passkey_confirm cfg H passkey s))).calls
            = s.calls ++ new
          ∧ ∀ c ∈ new, c ≠ Call.bt_conn_auth_passkey_confirm H ∧ c ≠ Call.bt_conn_auth_cancel H := by
  rcases disconnected_shape cfg stk H reason (auth_passkey_confirm cfg H passkey s) with ⟨q, hd⟩
  rw [hd]
  refine ⟨rfl, ?_⟩
  rcases Nat.eq_zero_or_pos cfg.BT_HIDS_MAX_CLIENT_COUNT with hcap | hcap
  · rw [auth_passkey_confirm_empty_zero cfg H passkey s hempty hcap]
    refine ⟨by simp [pairing_failed, k_msgq_peek, hempty], ?_⟩
    refine ⟨[Call.bt_conn_ref H, Call.bt_hids_disconnected H,
      Call.k_work_submit k_work.adv_work], by simp [pairing_failed, k_msgq_peek, hempty], ?_⟩
    intro c hc
    simp only [List.mem_cons, List.mem_singleton, List.not_mem_nil, or_false] at hc
    rcases hc with h | h | h <;> subst h <;> simp
  · rw [auth_passkey_confirm_empty_pos cfg H passkey s hempty hcap]
    rw [pairing_failed_head H reason2 _ ⟨H, passkey⟩ [] rfl rfl]
    refine ⟨rfl, ?_⟩
    refine ⟨[Call.bt_conn_ref H, Call.k_work_submit k_work.pairing_work,
      Call.bt_hids_disconnected H, Call.k_work_submit k_work.adv_work, Call.bt_conn_unref H],
      by simp, ?_⟩
    intro c hc
    simp only [List.mem_cons, List.mem_singleton, List.not_mem_nil, or_false] at hc
    rcases hc with h | h | h | h | h <;> subst h <;> simp

/-- Witness of amended C6: capacity 2, handle 1, passkey 111111. -/
theorem pairing_failed_purges_disconnected_witness :
    (main_init ⟨2, 1, true⟩).mitm_queue = []
      ∧ (disconnected ⟨2, 1, true⟩ ⟨[7], fun c => c + 6⟩ 1 19
          (auth_passkey_confirm ⟨2, 1, true⟩ 1 111111 (main_init ⟨2, 1, true⟩))).mitm_queue
        = [⟨1, 111111⟩]
      ∧ (pairing_failed 1 9
          (disconnected ⟨2, 1, true⟩ ⟨[7], fun c => c + 6⟩ 1 19
            (auth_passkey_confirm ⟨2, 1, true⟩ 1 111111 (main_init ⟨2, 1, true⟩)))).mitm_queue
        = [] :=
  ⟨rfl,
    (pairing_failed_purges_disconnected ⟨2, 1, true⟩ ⟨[7], fun c => c + 6⟩ 1 111111 19 9
      (main_init ⟨2, 1, true⟩) rfl).1.trans (by decide),
    (pairing_failed_purges_disconnected ⟨2, 1, true⟩ ⟨[7], fun c => c + 6⟩ 1 111111 19 9
      (main_init ⟨2, 1, true⟩) rfl).2.1⟩

/-- C7. `insert_conn_object(conn)`: when some slot is empty, `conn` is stored in the
lowest-index empty slot, that slot is put in report mode (`in_boot_mode = false`), and
nothing else changes; when no slot is empty, nothing changes. -/
theorem insert_conn_object_spec (conn : bt_conn) (s : State) :
    ((∃ m ∈ s.conn_mode, m.conn = NULL) →
        ∃ (i : Nat) (m : conn_mode_t), s.conn_mode[i]? = some m ∧ m.conn = NULL
          ∧ (∀ (j : Nat) (mj : conn_mode_t), j < i → s.conn_mode[j]? = some mj →
              mj.conn ≠ NULL)
          ∧ insert_conn_object conn s
            = { s with conn_mode := s.conn_mode.set i ⟨conn, false⟩ })
      ∧ ((∀ m ∈ s.conn_mode, m.conn ≠ NULL) → insert_conn_object conn s = s) := by
  rcases insert_conn_object_shape conn s with ⟨hfull, hsame⟩ | hins
  · exact ⟨fun ⟨m, hm, hnull⟩ => absurd hnull (hfull m hm), fun _ => hsame⟩
  · refine ⟨fun _ => hins, ?_⟩
    intro hfull
    rcases hins with ⟨i, m, hm, hnull, _, _⟩
    exact absurd hnull (hfull m (List.mem_iff_getElem?.mpr ⟨i, hm⟩))

/-- Witness of C7: three slots, the first occupied in boot mode, the second empty with a
stale boot-mode flag. -/
theorem insert_conn_object_spec_witness :
    (∃ m ∈ ({ main_init ⟨3, 1, true⟩ with
          conn_mode := [⟨5, true⟩, ⟨NULL, true⟩, ⟨NULL, false⟩] } : State).conn_mode,
        m.conn = NULL)
      ∧ ∃ (i : Nat) (m : conn_mode_t),
          ({ main_init ⟨3, 1, true⟩ with
            conn_mode := [⟨5, true⟩, ⟨NULL, true⟩, ⟨NULL, false⟩] } : State).conn_mode[i]?
            = some m
          ∧ m.conn = NULL
          ∧ (∀ (j : Nat) (mj : conn_mode_t), j < i →
              ({ main_init ⟨3, 1, true⟩ with
                conn_mode := [⟨5, true⟩, ⟨NULL, true⟩, ⟨NULL, false⟩] } : State).conn_mode[j]?
                = some mj → mj.conn ≠ NULL)
          ∧ insert_conn_object 9
              { main_init ⟨3, 1, true⟩ with
                conn_mode := [⟨5, true⟩, ⟨NULL, true⟩, ⟨NULL, false⟩] }
            = { ({ main_init ⟨3, 1, true⟩ with
                  conn_mode := [⟨5, true⟩, ⟨NULL, true⟩, ⟨NULL, false⟩] } : State) with
                conn_mode := ({ main_init ⟨3, 1, true⟩ with
                  conn_mode := [⟨5, true⟩, ⟨NULL, true⟩, ⟨NULL, false⟩] } : State).conn_mode.set
                    i ⟨9, false⟩ } :=
  ⟨⟨⟨NULL, true⟩, by decide, rfl⟩,
    (insert_conn_object_spec 9
      { main_init ⟨3, 1, true⟩ with
        conn_mode := [⟨5, true⟩, ⟨NULL, true⟩, ⟨NULL, false⟩] }).1
      ⟨⟨NULL, true⟩, by decide, rfl⟩⟩

/-- C8. Handle uniqueness: after any sequence of `connected` and `disconnected` events from
the all-empty table in which every `connected` brings a handle that no slot holds at that
moment, no handle other than `NULL` is in two slots. -/
theorem unique_handles_invariant (cfg : Kconfig) (stk : Stack) (evs : List ConnEvent)
    (hfresh : connects_fresh cfg stk (main_init cfg) evs = true) :
    unique_handles (conn_run cfg stk evs (main_init cfg)).conn_mode :=
  conn_run_unique cfg stk evs (main_init cfg) (main_init_unique cfg) hfresh

/-- Witness of C8: two slots; handles 1 and 2 connect, 1 disconnects, 3 connects. -/
theorem unique_handles_invariant_witness :
    connects_fresh ⟨2, 1, true⟩ ⟨[7], fun c => c + 6⟩ (main_init ⟨2, 1, true⟩)
        [ConnEvent.connected 1 0 0, ConnEvent.connected 2 0 0, ConnEvent.disconnected 1 19,
          ConnEvent.connected 3 0 0] = true
      ∧ unique_handles (conn_run ⟨2, 1, true⟩ ⟨[7], fun c => c + 6⟩
          [ConnEvent.connected 1 0 0, ConnEvent.connected 2 0 0, ConnEvent.disconnected 1 19,
            ConnEvent.connected 3 0 0] (main_init ⟨2, 1, true⟩)).conn_mode
      ∧ (conn_run ⟨2, 1, true⟩ ⟨[7], fun c => c + 6⟩
          [ConnEvent.connected 1 0 0, ConnEvent.connected 2 0 0, ConnEvent.disconnected 1 19,
            ConnEvent.connected 3 0 0] (main_init ⟨2, 1, true⟩)).conn_mode
        = [⟨3, false⟩, ⟨2, false⟩] :=
  ⟨by decide,
    unique_handles_invariant ⟨2, 1, true⟩ ⟨[7], fun c => c + 6⟩
      [ConnEvent.connected 1 0 0, ConnEvent.connected 2 0 0, ConnEvent.disconnected 1 19,
        ConnEvent.connected 3 0 0] (by decide),
    by decide⟩

/-- C9. Table removal on disconnect. If `h` is in no slot, the table update of
`disconnected(h)` leaves every slot as it was, so a second removal changes nothing either.
If `h` is a handle (not `NULL`) held by exactly one slot, then afterwards that slot is empty
with its mode flag kept, every other slot is unchanged, `h` is in no slot, and a second
removal changes nothing.  After any sequence of connect and disconnect events from the
all-empty table the number of occupied slots is at most
`CONFIG_BT_HIDS_MAX_CLIENT_COUNT`. -/
theorem disconnected_removal (cfg : Kconfig) (stk : Stack) (h : bt_conn) (reason : Nat)
    (s : State) :
    ((∀ m ∈ s.conn_mode, m.conn ≠ h) →
        (disconnected cfg stk h reason s).conn_mode = s.conn_mode
          ∧ (disconnected cfg stk h reason (disconnected cfg stk h reason s)).conn_mode
            = (disconnected cfg stk h reason s).conn_mode)
      ∧ (∀ (i : Nat) (m : conn_mode_t), h ≠ NULL → s.conn_mode[i]? = some m → m.conn = h →
          (∀ (j : Nat) (mj : conn_mode_t), j ≠ i → s.conn_mode[j]? = some mj → mj.conn ≠ h) →
          (disconnected cfg stk h reason s).conn_mode
              = s.conn_mode.set i ⟨NULL, m.in_boot_mode⟩
            ∧ (∀ m2 ∈ (disconnected cfg stk h reason s).conn_mode, m2.conn ≠ h)
            ∧ (disconnected cfg stk h reason (disconnected cfg stk h reason s)).conn_mode
              = (disconnected cfg stk h reason s).conn_mode)
      ∧ ∀ evs : List ConnEvent,
          occupied (conn_run cfg stk evs (main_init cfg)).conn_mode
            ≤ cfg.BT_HIDS_MAX_CLIENT_COUNT := by
  refine ⟨?_, ?_, ?_⟩
  · intro habsent
    have h1 : (disconnected cfg stk h reason s).conn_mode = s.conn_mode := by
      rw [disconnected_conn_mode, disconnected_table_absent h s.conn_mode habsent]
    refine ⟨h1, ?_⟩
    rw [disconnected_conn_mode cfg stk h reason (disconnected cfg stk h reason s), h1,
      disconnected_table_absent h s.conn_mode habsent]
  · intro i m hnull hm hconn hothers
    have h1 : (disconnected cfg stk h reason s).conn_mode
        = s.conn_mode.set i ⟨NULL, m.in_boot_mode⟩ := by
      rw [disconnected_conn_mode, disconnected_table_single h s.conn_mode i m hm hconn hothers]
    have h2 : ∀ m2 ∈ (disconnected cfg stk h reason s).conn_mode, m2.conn ≠ h := by
      intro m2 hm2
      rw [h1] at hm2
      rcases List.mem_iff_getElem?.mp hm2 with ⟨j, hj⟩
      rcases getElem?_set_cases s.conn_mode i j _ m2 hj with ⟨_, heq⟩ | ⟨hji, hget⟩
      · rw [heq]
        exact fun hc => hnull hc.symm
      · exact hothers j m2 hji hget
    refine ⟨h1, h2, ?_⟩
    rw [disconnected_conn_mode cfg stk h reason (disconnected cfg stk h reason s),
      disconnected_table_absent h _ h2]
  · intro evs
    have hlen := conn_run_length cfg stk evs (main_init cfg)
    have hocc := occupied_le_length (conn_run cfg stk evs (main_init cfg)).conn_mode
    have hinit : (main_init cfg).conn_mode.length = cfg.BT_HIDS_MAX_CLIENT_COUNT := by
      simp [main_init]
    omega

/-- Witness of C9: handle 7 is in slot 1 only, in boot mode; handle 9 is in no slot. -/
theorem disconnected_removal_witness :
    (∀ m ∈ ({ main_init ⟨2, 1, true⟩ with
          conn_mode := [⟨5, false⟩, ⟨7, true⟩] } : State).conn_mode, m.conn ≠ 9)
      ∧ (disconnected ⟨2, 1, true⟩ ⟨[7], fun c => c + 6⟩ 9 19
          { main_init ⟨2, 1, true⟩ with conn_mode := [⟨5, false⟩, ⟨7, true⟩] }).conn_mode
        = [⟨5, false⟩, ⟨7, true⟩]
      ∧ (disconnected ⟨2, 1, true⟩ ⟨[7], fun c => c + 6⟩ 7 19
          { main_init ⟨2, 1, true⟩ with conn_mode := [⟨5, false⟩, ⟨7, true⟩] }).conn_mode
        = [⟨5, false⟩, ⟨NULL, true⟩] :=
  ⟨by decide,
    ((disconnected_removal ⟨2, 1, true⟩ ⟨[7], fun c => c + 6⟩ 9 19
      { main_init ⟨2, 1, true⟩ with conn_mode := [⟨5, false⟩, ⟨7, true⟩] }).1 (by decide)).1,
    ((disconnected_removal ⟨2, 1, true⟩ ⟨[7], fun c => c + 6⟩ 7 19
      { main_init ⟨2, 1, true⟩ with conn_mode := [⟨5, false⟩, ⟨7, true⟩] }).2.1
        1 ⟨7, true⟩ (by decide) rfl rfl
        (fun j mj hj hget => by
          cases j with
          | zero =>
            have hmj : mj = ⟨5, false⟩ := (Option.some.inj hget).symm
            rw [hmj]
            decide
          | succ k =>
            cases k with
            | zero => exact absurd rfl hj
            | succ k2 => exact absurd hget (by simp))).1⟩

/-- C10. Frame of `hids_pm_evt_handler(evt, conn)`: when `conn` is first held by slot `i`,
the boot-mode event sets `in_boot_mode` of slot `i` to `true` and the report-mode event sets
it to `false`, and nothing else in the state changes; when no slot holds `conn`, or the
event is neither of the two, the state is unchanged; and in every case the handles of all
slots are as before. -/
theorem hids_pm_evt_handler_frame (evt : bt_hids_pm_evt) (conn : bt_conn) (s : State) :
    (∀ (i : Nat) (m : conn_mode_t), s.conn_mode[i]? = some m → m.conn = conn →
        (∀ (j : Nat) (mj : conn_mode_t), j < i → s.conn_mode[j]? = some mj → mj.conn ≠ conn) →
        hids_pm_evt_handler bt_hids_pm_evt.BT_HIDS_PM_EVT_BOOT_MODE_ENTERED conn s
            = { s with conn_mode := s.conn_mode.set i ⟨m.conn, true⟩ }
          ∧ hids_pm_evt_handler bt_hids_pm_evt.BT_HIDS_PM_EVT_REPORT_MODE_ENTERED conn s
            = { s with conn_mode := s.conn_mode.set i ⟨m.conn, false⟩ })
      ∧ ((∀ m ∈ s.conn_mode, m.conn ≠ conn) → hids_pm_evt_handler evt conn s = s)
      ∧ (∀ raw : Nat, hids_pm_evt_handler (bt_hids_pm_evt.other raw) conn s = s)
      ∧ (hids_pm_evt_handler evt conn s).conn_mode.map conn_mode_t.conn
        = s.conn_mode.map conn_mode_t.conn := by
  refine ⟨?_, ?_, ?_, ?_⟩
  · intro i m hm hconn hbefore
    constructor
    · rcases hids_pm_evt_handler_shape bt_hids_pm_evt.BT_HIDS_PM_EVT_BOOT_MODE_ENTERED conn s
        with ⟨habsent, _⟩ | ⟨k, mk, hmk, hconnk, hbeforek, hres⟩
      · exact absurd hconn (habsent m (List.mem_iff_getElem?.mpr ⟨i, hm⟩))
      · rcases first_index_unique (fun x => x.conn = conn) s.conn_mode i k m mk hm hconn
          hbefore hmk hconnk hbeforek with ⟨hik, hmm⟩
        rw [hres, hik, hmm]
    · rcases hids_pm_evt_handler_shape bt_hids_pm_evt.BT_HIDS_PM_EVT_REPORT_MODE_ENTERED conn s
        with ⟨habsent, _⟩ | ⟨k, mk, hmk, hconnk, hbeforek, hres⟩
      · exact absurd hconn (habsent m (List.mem_iff_getElem?.mpr ⟨i, hm⟩))
      · rcases first_index_unique (fun x => x.conn = conn) s.conn_mode i k m mk hm hconn
          hbefore hmk hconnk hbeforek with ⟨hik, hmm⟩
        rw [hres, hik, hmm]
  · intro habsent
    rcases hids_pm_evt_handler_shape evt conn s with ⟨_, hsame⟩ | ⟨k, mk, hmk, hconnk, _, _⟩
    · exact hsame
    · exact absurd hconnk (habsent mk (List.mem_iff_getElem?.mpr ⟨k, hmk⟩))
  · intro raw
    rcases hids_pm_evt_handler_shape (bt_hids_pm_evt.other raw) conn s with
      ⟨_, hsame⟩ | ⟨k, mk, _, _, _, hres⟩
    · exact hsame
    · exact hres
  · rcases hids_pm_evt_handler_shape evt conn s with ⟨_, hsame⟩ | ⟨k, mk, hmk, _, _, hres⟩
    · rw [hsame]
    · rw [hres]
      cases evt with
      | BT_HIDS_PM_EVT_BOOT_MODE_ENTERED => exact map_conn_set_same s.conn_mode k mk true hmk
      | BT_HIDS_PM_EVT_REPORT_MODE_ENTERED => exact map_conn_set_same s.conn_mode k mk false hmk
      | other raw => rfl

/-- Witness of C10: handle 7 is in slots 1 and 2; the boot-mode event changes slot 1 only. -/
theorem hids_pm_evt_handler_frame_witness :
    ({ main_init ⟨3, 1, true⟩ with
          conn_mode := [⟨5, false⟩, ⟨7, false⟩, ⟨7, false⟩] } : State).conn_mode[1]?
        = some ⟨7, false⟩
      ∧ hids_pm_evt_handler bt_hids_pm_evt.BT_HIDS_PM_EVT_BOOT_MODE_ENTERED 7
          { main_init ⟨3, 1, true⟩ with conn_mode := [⟨5, false⟩, ⟨7, false⟩, ⟨7, false⟩] }
        = { main_init ⟨3, 1, true⟩ with conn_mode := [⟨5, false⟩, ⟨7, true⟩, ⟨7, false⟩] } :=
  ⟨rfl,
    ((hids_pm_evt_handler_frame bt_hids_pm_evt.BT_HIDS_PM_EVT_BOOT_MODE_ENTERED 7
      { main_init ⟨3, 1, true⟩ with
        conn_mode := [⟨5, false⟩, ⟨7, false⟩, ⟨7, false⟩] }).1 1 ⟨7, false⟩ rfl rfl
      (fun j mj hj hget => by
        cases j with
        | zero =>
          have hmj : mj = ⟨5, false⟩ := (Option.some.inj hget).symm
          rw [hmj]
          decide
        | succ k => exact absurd hj (by omega))).1.trans (by decide)⟩

/-- C11. Reconnect queue rebuild: with directed advertising compiled in and at most
`CONFIG_BT_MAX_PAIRED` bonds, after `advertising_start()` the `bonds_queue` is the bond list
in enumeration order without the identities that are the peer address of an occupied slot,
whatever the queue held before; so a bonded identity that is the peer of no occupied slot is
in the queue and the peer of an occupied slot is not. -/
theorem reconnect_queue_rebuild (cfg : Kconfig) (stk : Stack) (s : State)
    (hdir : cfg.BT_DIRECTED_ADVERTISING = true)
    (hlen : stk.bonds.length ≤ cfg.BT_MAX_PAIRED) :
    (advertising_start cfg stk s).bonds_queue
        = stk.bonds.filter (fun a => !peer_connected stk s.conn_mode a)
      ∧ (∀ a ∈ stk.bonds,
          (∀ m ∈ s.conn_mode, m.conn ≠ NULL → stk.bt_conn_get_dst m.conn ≠ a) →
          a ∈ (advertising_start cfg stk s).bonds_queue)
      ∧ (∀ a : bt_addr_le_t,
          (∃ m ∈ s.conn_mode, m.conn ≠ NULL ∧ stk.bt_conn_get_dst m.conn = a) →
          a ∉ (advertising_start cfg stk s).bonds_queue) := by
  have hq : (advertising_start cfg stk s).bonds_queue
      = stk.bonds.filter (fun a => !peer_connected stk s.conn_mode a) := by
    simp only [advertising_start, hdir, if_true, emit, bt_foreach_bond]
    rw [foldl_bond_find_queue cfg stk stk.bonds _ (by simpa [k_msgq_purge] using hlen)]
    simp [k_msgq_purge]
  refine ⟨hq, ?_, ?_⟩
  · intro a ha habsent
    rw [hq, List.mem_filter]
    refine ⟨ha, ?_⟩
    simp only [peer_connected, Bool.not_eq_true', List.any_eq_false, decide_eq_true_eq]
    intro m hm hpeer
    exact habsent m hm hpeer.1 hpeer.2
  · intro a hpeer
    rw [hq, List.mem_filter]
    rintro ⟨_, hnot⟩
    rcases hpeer with ⟨m, hm, hnull, hdst⟩
    have hyes : peer_connected stk s.conn_mode a = true := by
      simp only [peer_connected, List.any_eq_true, decide_eq_true_eq]
      exact ⟨m, hm, hnull, hdst⟩
    rw [hyes] at hnot
    exact absurd hnot (by decide)

/-- Witness of C11: bonds 7, 8, 9; the peer of the one connection is 8; the queue held 42. -/
theorem reconnect_queue_rebuild_witness :
    ((⟨2, 3, true⟩ : Kconfig).BT_DIRECTED_ADVERTISING = true
      ∧ (⟨[7, 8, 9], fun c => c + 7⟩ : Stack).bonds.length ≤ (⟨2, 3, true⟩ : Kconfig).BT_MAX_PAIRED)
      ∧ (advertising_start ⟨2, 3, true⟩ ⟨[7, 8, 9], fun c => c + 7⟩
          { main_init ⟨2, 3, true⟩ with
            conn_mode := [⟨1, false⟩, ⟨NULL, false⟩]
            bonds_queue := [42] }).bonds_queue = [7, 9] :=
  ⟨⟨rfl, by decide⟩,
    (reconnect_queue_rebuild ⟨2, 3, true⟩ ⟨[7, 8, 9], fun c => c + 7⟩
      { main_init ⟨2, 3, true⟩ with
        conn_mode := [⟨1, false⟩, ⟨NULL, false⟩]
        bonds_queue := [42] } rfl (by decide)).1.trans (by decide)⟩

/-- C12, as stated, fails: with one bonded peer 7 and no connection, a second
`advertising_start` with its work item, right after the first and with every call
succeeding, makes a `bt_le_adv_start` call again. -/
theorem second_run_starts_again :
    ¬ (∀ c ∈ (advertising_run ⟨2, 1, true⟩ ⟨[7], fun c => c + 6⟩ 0 0
          (advertising_run ⟨2, 1, true⟩ ⟨[7], fun c => c + 6⟩ 0 0
            (main_init ⟨2, 1, true⟩))).calls.drop
          (advertising_run ⟨2, 1, true⟩ ⟨[7], fun c => c + 6⟩ 0 0
            (main_init ⟨2, 1, true⟩)).calls.length,
        is_adv_start c = false) := by
  decide

/-- C12, amended. Running `advertising_start` with its work item twice in succession, every
call succeeding and no event in between: after the first run `is_adv_running` is `true`, and
the second run leaves every variable as the first run left it.  When the rebuilt reconnect
queue is empty (or directed advertising is compiled out) the second run makes no call but
the submission of `adv_work`; when the rebuilt queue has head `a`, the second run stops
advertising and starts directed advertising at `a` again. -/
theorem advertising_run_twice (cfg : Kconfig) (stk : Stack) (s : State) :
    (advertising_run cfg stk 0 0 s).is_adv_running = true
      ∧ { advertising_run cfg stk 0 0 (advertising_run cfg stk 0 0 s) with calls := [] }
        = { advertising_run cfg stk 0 0 s with calls := [] }
      ∧ ((cfg.BT_DIRECTED_ADVERTISING = false
            ∨ (advertising_start cfg stk s).bonds_queue = []) →
          (advertising_run cfg stk 0 0 (advertising_run cfg stk 0 0 s)).calls
            = (advertising_run cfg stk 0 0 s).calls ++ [Call.k_work_submit k_work.adv_work])
      ∧ (∀ (a : bt_addr_le_t) (rest : List bt_addr_le_t),
          cfg.BT_DIRECTED_ADVERTISING = true →
          (advertising_start cfg stk s).bonds_queue = a :: rest →
          (advertising_run cfg stk 0 0 (advertising_run cfg stk 0 0 s)).calls
            = (advertising_run cfg stk 0 0 s).calls
              ++ [Call.k_work_submit k_work.adv_work, Call.bt_le_adv_stop,
                Call.bt_le_adv_start (adv_param.BT_LE_ADV_CONN_DIR a)]) := by
  rcases queue_directed_or_not cfg (advertising_start cfg stk s) with h | ⟨a, rest, hdir, hq⟩
  · have h1 := advertising_run_undirected cfg stk s h
    have hmode : (advertising_run cfg stk 0 0 s).conn_mode = s.conn_mode := by rw [h1]
    have hqueue : (advertising_run cfg stk 0 0 s).bonds_queue
        = (advertising_start cfg stk s).bonds_queue := by rw [h1]
    have hq2 : (advertising_start cfg stk (advertising_run cfg stk 0 0 s)).bonds_queue
        = (advertising_start cfg stk s).bonds_queue := by
      cases hdir : cfg.BT_DIRECTED_ADVERTISING with
      | false =>
        rw [advertising_start_queue_off cfg stk _ hdir, hqueue]
      | true =>
        exact advertising_start_queue_congr cfg stk _ s hdir hmode
    have h' : cfg.BT_DIRECTED_ADVERTISING = false
        ∨ (advertising_start cfg stk (advertising_run cfg stk 0 0 s)).bonds_queue = [] := by
      rcases h with h | h
      · exact Or.inl h
      · exact Or.inr (by rw [hq2, h])
    have hrun : (advertising_run cfg stk 0 0 s).is_adv_running = true := by rw [h1]
    have h2 := advertising_run_undirected cfg stk (advertising_run cfg stk 0 0 s) h'
    rw [hq2, if_pos hrun, List.append_nil] at h2
    refine ⟨hrun, ?_, ?_, ?_⟩
    · rw [h2, h1]
    · intro _
      rw [h2]
    · intro b rest2 hdir hq
      rcases h with h | h
      · rw [h] at hdir
        exact absurd hdir (by decide)
      · rw [h] at hq
        exact absurd hq (by simp)
  · have h1 := advertising_run_directed cfg stk s a rest hdir hq
    have hmode : (advertising_run cfg stk 0 0 s).conn_mode = s.conn_mode := by rw [h1]
    have hq2 : (advertising_start cfg stk (advertising_run cfg stk 0 0 s)).bonds_queue
        = a :: rest := by
      rw [advertising_start_queue_congr cfg stk _ s hdir hmode, hq]
    have hrun : (advertising_run cfg stk 0 0 s).is_adv_running = true := by rw [h1]
    have h2 := advertising_run_directed cfg stk (advertising_run cfg stk 0 0 s) a rest hdir hq2
    rw [if_pos hrun] at h2
    refine ⟨hrun, ?_, ?_, ?_⟩
    · rw [h2, h1]
    · intro h
      rcases h with h | h
      · rw [h] at hdir
        exact absurd hdir (by decide)
      · rw [h] at hq
        exact absurd hq (by simp)
    · intro b rest2 _ hq3
      rw [hq] at hq3
      simp only [List.cons.injEq] at hq3
      rw [h2, ← hq3.1]
      simp

/-- Witness of amended C12: no bond, no connection; the first run starts undirected
advertising and the second only submits the work item. -/
theorem advertising_run_twice_witness :
    (advertising_start ⟨2, 1, true⟩ ⟨[], fun c => c + 6⟩ (main_init ⟨2, 1, true⟩)).bonds_queue
        = []
      ∧ (advertising_run ⟨2, 1, true⟩ ⟨[], fun c => c + 6⟩ 0 0
          (advertising_run ⟨2, 1, true⟩ ⟨[], fun c => c + 6⟩ 0 0
            (main_init ⟨2, 1, true⟩))).calls
        = [Call.k_work_submit k_work.adv_work, Call.bt_le_adv_start adv_param.BT_LE_ADV_CONN,
            Call.k_work_submit k_work.adv_work] :=
  ⟨by decide,
    ((advertising_run_twice ⟨2, 1, true⟩ ⟨[], fun c => c + 6⟩ (main_init ⟨2, 1, true⟩)).2.2.1
      (Or.inr (by decide))).trans (by decide)⟩

/-- C13. Advertising exclusivity: whenever `advertising_continue` reaches its
`bt_le_adv_start` call, `is_adv_running` is `false` at that moment, either because it was
`false` on entry and no call came before, or because it was `true` and the one
`bt_le_adv_stop` made before has returned 0; that start call is the last call of the run, and
a run makes at most one start call. -/
theorem advertising_exclusive (cfg : Kconfig) (stop_ret start_ret : Int) (s : State) :
    (∀ param : adv_param, (advertising_continue_prepare cfg stop_ret s).2 = some param →
        (advertising_continue_prepare cfg stop_ret s).1.is_adv_running = false
          ∧ ((s.is_adv_running = false
              ∧ (advertising_continue_prepare cfg stop_ret s).1.calls = s.calls)
            ∨ (s.is_adv_running = true ∧ stop_ret = 0
              ∧ (advertising_continue_prepare cfg stop_ret s).1.calls
                = s.calls ++ [Call.bt_le_adv_stop]))
          ∧ (advertising_continue cfg stop_ret start_ret s).calls
            = (advertising_continue_prepare cfg stop_ret s).1.calls
              ++ [Call.bt_le_adv_start param])
      ∧ ((advertising_continue_prepare cfg stop_ret s).2 = none →
          ∀ c ∈ (advertising_continue cfg stop_ret start_ret s).calls.drop s.calls.length,
            is_adv_start c = false)
      ∧ ((advertising_continue cfg stop_ret start_ret s).calls.drop s.calls.length).countP
          is_adv_start ≤ 1 := by
  rcases advertising_continue_prepare_cases cfg stop_ret s with
    ⟨s1, hprep, hcalls⟩ | ⟨s1, param, hprep, hrun, hcalls⟩
  · have hcont := advertising_continue_of_prepare cfg stop_ret start_ret s s1 none hprep
    simp only at hcont
    rw [hprep, hcont]
    refine ⟨fun p hp => by simp at hp, ?_, ?_⟩
    · intro _ c hc
      rcases hcalls with h | h
      · rw [h] at hc; simp at hc
      · rw [h] at hc
        simp at hc
        rw [hc]
        rfl
    · rcases hcalls with h | h
      · rw [h]; simp
      · rw [h]; simp [is_adv_start]
  · have hcont := advertising_continue_of_prepare cfg stop_ret start_ret s s1 (some param) hprep
    simp only at hcont
    have hcalls2 : (advertising_continue cfg stop_ret start_ret s).calls
        = s1.calls ++ [Call.bt_le_adv_start param] := by
      rw [hcont]
      unfold advertising_continue_start
      split <;> rfl
    rw [hprep]
    refine ⟨?_, fun h => by simp at h, ?_⟩
    · intro p hp
      simp only [Option.some.injEq] at hp
      subst hp
      exact ⟨hrun, hcalls, hcalls2⟩
    · rw [hcalls2]
      rcases hcalls with ⟨_, h⟩ | ⟨_, _, h⟩
      · rw [h]; simp [is_adv_start]
      · rw [h]; simp [is_adv_start]

/-- Witness of C13: undirected advertising is running and the reconnect queue holds peer 7;
the run stops advertising and then starts directed advertising at 7. -/
theorem advertising_exclusive_witness :
    (advertising_continue_prepare ⟨2, 1, true⟩ 0
        { main_init ⟨2, 1, true⟩ with is_adv_running := true, bonds_queue := [7] }).2
        = some (adv_param.BT_LE_ADV_CONN_DIR 7)
      ∧ (advertising_continue_prepare ⟨2, 1, true⟩ 0
          { main_init ⟨2, 1, true⟩ with is_adv_running := true, bonds_queue := [7] }).1.is_adv_running
        = false
      ∧ (advertising_continue ⟨2, 1, true⟩ 0 0
          { main_init ⟨2, 1, true⟩ with is_adv_running := true, bonds_queue := [7] }).calls
        = [Call.bt_le_adv_stop, Call.bt_le_adv_start (adv_param.BT_LE_ADV_CONN_DIR 7)] :=
  ⟨rfl,
    ((advertising_exclusive ⟨2, 1, true⟩ 0 0
      { main_init ⟨2, 1, true⟩ with is_adv_running := true, bonds_queue := [7] }).1
        (adv_param.BT_LE_ADV_CONN_DIR 7) rfl).1,
    ((advertising_exclusive ⟨2, 1, true⟩ 0 0
      { main_init ⟨2, 1, true⟩ with is_adv_running := true, bonds_queue := [7] }).1
        (adv_param.BT_LE_ADV_CONN_DIR 7) rfl).2.2.trans (by decide)⟩

/-- C14, as stated, fails: with advertising running and peer 7 in the reconnect queue, a
`bt_le_adv_stop` that returns an error ends the run with `is_adv_running` still `true`. -/
theorem adv_stop_failure_keeps_running :
    ¬ ((advertising_continue ⟨2, 1, true⟩ (-5) 0
        { main_init ⟨2, 1, true⟩ with is_adv_running := true, bonds_queue := [7] }).is_adv_running
      = false) := by
  decide

/-- C14, amended. Failure policy of `advertising_continue`: when its `bt_le_adv_stop` call
(made with a peer taken from the reconnect queue while advertising is running) returns an
error, the run ends right after that call with `is_adv_running` left `true`; when its
`bt_le_adv_start` call returns an error, the run ends right after that call with
`is_adv_running` `false`.  In both cases the failed call is the last call of the run. -/
theorem advertising_failure_policy (cfg : Kconfig) (stop_ret start_ret : Int) (s : State) :
    (∀ (a : bt_addr_le_t) (rest : List bt_addr_le_t), cfg.BT_DIRECTED_ADVERTISING = true →
        s.bonds_queue = a :: rest → s.is_adv_running = true → stop_ret ≠ 0 →
        advertising_continue cfg stop_ret start_ret s =
          { s with bonds_queue := rest, calls := s.calls ++ [Call.bt_le_adv_stop] })
      ∧ (∀ param : adv_param, (advertising_continue_prepare cfg stop_ret s).2 = some param →
          start_ret ≠ 0 →
          advertising_continue cfg stop_ret start_ret s =
              emit (Call.bt_le_adv_start param) (advertising_continue_prepare cfg stop_ret s).1
            ∧ (advertising_continue cfg stop_ret start_ret s).is_adv_running = false) := by
  constructor
  · intro a rest hdir hq hrun hstop
    have hprep := advertising_continue_prepare_directed cfg stop_ret s a rest hdir hq
    rw [if_pos hrun, if_pos hstop] at hprep
    exact advertising_continue_of_prepare cfg stop_ret start_ret s _ none hprep
  · intro param hparam hstart
    rcases advertising_continue_prepare_cases cfg stop_ret s with
      ⟨s1, hprep, _⟩ | ⟨s1, p, hprep, hrun, _⟩
    · rw [hprep] at hparam
      simp at hparam
    · have hcont := advertising_continue_of_prepare cfg stop_ret start_ret s s1 (some p) hprep
      simp only at hcont
      rw [hprep] at hparam ⊢
      simp only [Option.some.injEq] at hparam
      subst hparam
      have hres : advertising_continue cfg stop_ret start_ret s
          = emit (Call.bt_le_adv_start p) s1 := by
        rw [hcont]
        unfold advertising_continue_start
        rw [if_pos hstart]
      refine ⟨hres, ?_⟩
      rw [hres]
      exact hrun

/-- Witness of amended C14: a failed stop with advertising running, and a failed undirected
start with nothing running. -/
theorem advertising_failure_policy_witness :
    advertising_continue ⟨2, 1, true⟩ (-5) 0
        { main_init ⟨2, 1, true⟩ with is_adv_running := true, bonds_queue := [7] }
        = { main_init ⟨2, 1, true⟩ with
            is_adv_running := true
            bonds_queue := []
            calls := [Call.bt_le_adv_stop] }
      ∧ advertising_continue ⟨2, 1, true⟩ 0 (-12) (main_init ⟨2, 1, true⟩)
        = { main_init ⟨2, 1, true⟩ with
            calls := [Call.bt_le_adv_start adv_param.BT_LE_ADV_CONN] } :=
  ⟨((advertising_failure_policy ⟨2, 1, true⟩ (-5) 0
      { main_init ⟨2, 1, true⟩ with is_adv_running := true, bonds_queue := [7] }).1
        7 [] rfl rfl rfl (by decide)).trans (by decide),
    (((advertising_failure_policy ⟨2, 1, true⟩ 0 (-12) (main_init ⟨2, 1, true⟩)).2
        adv_param.BT_LE_ADV_CONN rfl (by decide)).1).trans (by decide)⟩

/-- C15. Directed-advertising timeout falls back: `connected(conn, BT_HCI_ERR_ADV_TIMEOUT)`
changes nothing but `is_adv_running`, which it clears, and submits `adv_work`; the run of
`advertising_continue` that follows starts directed advertising at the next identity of the
reconnect queue when one remains, and undirected advertising otherwise, without any stop
call. -/
theorem adv_timeout_falls_back (cfg : Kconfig) (stk : Stack) (conn : bt_conn)
    (hids_ret stop_ret start_ret : Int) (s : State) :
    connected cfg stk conn BT_HCI_ERR_ADV_TIMEOUT hids_ret s
        = { s with
            is_adv_running := false
            calls := s.calls ++ [Call.k_work_submit k_work.adv_work] }
      ∧ (∀ (a : bt_addr_le_t) (rest : List bt_addr_le_t),
          cfg.BT_DIRECTED_ADVERTISING = true → s.bonds_queue = a :: rest →
          advertising_continue cfg stop_ret start_ret
              (connected cfg stk conn BT_HCI_ERR_ADV_TIMEOUT hids_ret s)
            = { s with
                bonds_queue := rest
                is_adv_running := decide (start_ret = 0)
                calls := s.calls ++ [Call.k_work_submit k_work.adv_work,
                  Call.bt_le_adv_start (adv_param.BT_LE_ADV_CONN_DIR a)] })
      ∧ ((cfg.BT_DIRECTED_ADVERTISING = false ∨ s.bonds_queue = []) →
          advertising_continue cfg stop_ret start_ret
              (connected cfg stk conn BT_HCI_ERR_ADV_TIMEOUT hids_ret s)
            = { s with
                is_adv_running := decide (start_ret = 0)
                calls := s.calls ++ [Call.k_work_submit k_work.adv_work,
                  Call.bt_le_adv_start adv_param.BT_LE_ADV_CONN] }) := by
  have hconn := connected_timeout_eq cfg stk conn hids_ret s
  refine ⟨hconn, ?_, ?_⟩
  · intro a rest hdir hq
    rw [hconn]
    have hprep := advertising_continue_prepare_directed cfg stop_ret
      { s with
        is_adv_running := false
        calls := s.calls ++ [Call.k_work_submit k_work.adv_work] } a rest hdir hq
    rw [if_neg (by simp)] at hprep
    rw [advertising_continue_of_prepare cfg stop_ret start_ret _ _ _ hprep]
    simp only [advertising_continue_start_eq]
    by_cases h : start_ret = 0 <;> simp [h]
  · intro hq
    rw [hconn]
    have hprep := advertising_continue_prepare_undirected cfg stop_ret
      { s with
        is_adv_running := false
        calls := s.calls ++ [Call.k_work_submit k_work.adv_work] } hq
    rw [if_neg (by simp)] at hprep
    rw [advertising_continue_of_prepare cfg stop_ret start_ret _ _ _ hprep]
    simp only [advertising_continue_start_eq]
    by_cases h : start_ret = 0 <;> simp [h]

/-- Witness of C15 (Scenario B): one bonded peer 7 and no connection.  `advertising_start`
and its work item start directed advertising at 7; after the timeout the queue is empty and
undirected advertising is started. -/
theorem adv_timeout_falls_back_witness :
    (advertising_run ⟨2, 1, true⟩ ⟨[7], fun c => c + 6⟩ 0 0 (main_init ⟨2, 1, true⟩)).calls
        = [Call.k_work_submit k_work.adv_work,
            Call.bt_le_adv_start (adv_param.BT_LE_ADV_CONN_DIR 7)]
      ∧ (advertising_run ⟨2, 1, true⟩ ⟨[7], fun c => c + 6⟩ 0 0
          (main_init ⟨2, 1, true⟩)).bonds_queue = []
      ∧ (advertising_continue ⟨2, 1, true⟩ 0 0
          (connected ⟨2, 1, true⟩ ⟨[7], fun c => c + 6⟩ 0 BT_HCI_ERR_ADV_TIMEOUT 0
            (advertising_run ⟨2, 1, true⟩ ⟨[7], fun c => c + 6⟩ 0 0
              (main_init ⟨2, 1, true⟩)))).calls
        = [Call.k_work_submit k_work.adv_work,
            Call.bt_le_adv_start (adv_param.BT_LE_ADV_CONN_DIR 7),
            Call.k_work_submit k_work.adv_work,
            Call.bt_le_adv_start adv_param.BT_LE_ADV_CONN] :=
  ⟨by decide, by decide,
    (congrArg State.calls
      ((adv_timeout_falls_back ⟨2, 1, true⟩ ⟨[7], fun c => c + 6⟩ 0 0 0 0
        (advertising_run ⟨2, 1, true⟩ ⟨[7], fun c => c + 6⟩ 0 0 (main_init ⟨2, 1, true⟩))).2.2
          (Or.inr (by decide)))).trans (by decide)⟩

/-- C16. Advertising is re-armed only while a slot is free: on `connected(conn, 0)` with the
HID service notified without error, the table becomes what `insert_conn_object(conn)` makes
of it; `is_conn_slot_free()` then holds exactly when some slot is empty; when it holds the
event ends with `advertising_start()` (the queue rebuild and the submission of `adv_work`),
and when it does not, the only call of the event is `bt_hids_connected`, the reconnect queue
is not rebuilt and no work item is submitted. -/
theorem connected_rearms_iff_slot_free (cfg : Kconfig) (stk : Stack) (conn : bt_conn)
    (s : State) :
    (connected cfg stk conn 0 0 s).conn_mode = (insert_conn_object conn s).conn_mode
      ∧ (is_conn_slot_free (connected cfg stk conn 0 0 s) = true
          ↔ ∃ m ∈ (connected cfg stk conn 0 0 s).conn_mode, m.conn = NULL)
      ∧ (is_conn_slot_free (connected cfg stk conn 0 0 s) = true →
          connected cfg stk conn 0 0 s
              = advertising_start cfg stk (insert_conn_object conn
                  (emit (Call.bt_hids_connected conn) { s with is_adv_running := false }))
            ∧ (connected cfg stk conn 0 0 s).calls
              = s.calls ++ [Call.bt_hids_connected conn, Call.k_work_submit k_work.adv_work])
      ∧ (is_conn_slot_free (connected cfg stk conn 0 0 s) = false →
          connected cfg stk conn 0 0 s
              = insert_conn_object conn
                  (emit (Call.bt_hids_connected conn) { s with is_adv_running := false })
            ∧ (connected cfg stk conn 0 0 s).calls = s.calls ++ [Call.bt_hids_connected conn]
            ∧ (connected cfg stk conn 0 0 s).bonds_queue = s.bonds_queue) := by
  have heq := connected_ok_eq cfg stk conn s
  have hframe := insert_conn_object_frame conn
    (emit (Call.bt_hids_connected conn) { s with is_adv_running := false })
  have hmodeX : (insert_conn_object conn
      (emit (Call.bt_hids_connected conn) { s with is_adv_running := false })).conn_mode
      = (insert_conn_object conn s).conn_mode :=
    insert_conn_object_conn_mode_congr conn _ s rfl
  have hmode : (connected cfg stk conn 0 0 s).conn_mode
      = (insert_conn_object conn
          (emit (Call.bt_hids_connected conn) { s with is_adv_running := false })).conn_mode := by
    rw [heq]
    split
    · rw [advertising_start_conn_mode]
    · rfl
  have hfree := is_conn_slot_free_congr (connected cfg stk conn 0 0 s) _ hmode
  refine ⟨hmode.trans hmodeX, is_conn_slot_free_iff _, ?_, ?_⟩
  · intro h
    rw [hfree] at h
    have hres : connected cfg stk conn 0 0 s
        = advertising_start cfg stk (insert_conn_object conn
            (emit (Call.bt_hids_connected conn) { s with is_adv_running := false })) := by
      rw [heq, if_pos h]
    refine ⟨hres, ?_⟩
    rw [hres, advertising_start_eq]
    show (insert_conn_object conn
        (emit (Call.bt_hids_connected conn) { s with is_adv_running := false })).calls
        ++ [Call.k_work_submit k_work.adv_work] = _
    rw [hframe.1]
    simp [emit]
  · intro h
    rw [hfree] at h
    have hres : connected cfg stk conn 0 0 s
        = insert_conn_object conn
            (emit (Call.bt_hids_connected conn) { s with is_adv_running := false }) := by
      rw [heq, if_neg (by simp [h])]
    refine ⟨hres, ?_, ?_⟩
    · rw [hres, hframe.1]; rfl
    · rw [hres, hframe.2.1]; rfl

/-- Witness of C16 (Scenario A): two slots, handles 1 and 2 connect.  Both are in the table,
no slot is free, and the second connect makes no call but `bt_hids_connected`. -/
theorem connected_rearms_iff_slot_free_witness :
    (conn_run ⟨2, 1, true⟩ ⟨[7], fun c => c + 6⟩
        [ConnEvent.connected 1 0 0, ConnEvent.connected 2 0 0] (main_init ⟨2, 1, true⟩)).conn_mode
        = [⟨1, false⟩, ⟨2, false⟩]
      ∧ is_conn_slot_free (connected ⟨2, 1, true⟩ ⟨[7], fun c => c + 6⟩ 2 0 0
          (connected ⟨2, 1, true⟩ ⟨[7], fun c => c + 6⟩ 1 0 0 (main_init ⟨2, 1, true⟩))) = false
      ∧ (connected ⟨2, 1, true⟩ ⟨[7], fun c => c + 6⟩ 2 0 0
          (connected ⟨2, 1, true⟩ ⟨[7], fun c => c + 6⟩ 1 0 0 (main_init ⟨2, 1, true⟩))).calls
        = (connected ⟨2, 1, true⟩ ⟨[7], fun c => c + 6⟩ 1 0 0 (main_init ⟨2, 1, true⟩)).calls
          ++ [Call.bt_hids_connected 2] :=
  ⟨by decide, by decide,
    ((connected_rearms_iff_slot_free ⟨2, 1, true⟩ ⟨[7], fun c => c + 6⟩ 2
      (connected ⟨2, 1, true⟩ ⟨[7], fun c => c + 6⟩ 1 0 0 (main_init ⟨2, 1, true⟩))).2.2.2
        (by decide)).2.1⟩

/-- C17, as stated, fails: with the request of handle 1 pending and the start flag `false`,
a press of button 3 alone (neither button 1 nor button 2 newly pressed) sets the start flag. -/
theorem button_three_while_pending_sets_start :
    (auth_passkey_confirm ⟨2, 1, true⟩ 1 111111 (main_init ⟨2, 1, true⟩)).mitm_queue ≠ []
      ∧ (DK_BTN3_MSK &&& DK_BTN3_MSK) &&& KEY_PAIRING_ACCEPT = 0
      ∧ (DK_BTN3_MSK &&& DK_BTN3_MSK) &&& KEY_PAIRING_REJECT = 0
      ∧ (auth_passkey_confirm ⟨2, 1, true⟩ 1 111111 (main_init ⟨2, 1, true⟩)).start = false
      ∧ (button_changed true DK_BTN3_MSK DK_BTN3_MSK
          (auth_passkey_confirm ⟨2, 1, true⟩ 1 111111 (main_init ⟨2, 1, true⟩))).start = true := by
  decide

/-- C17, amended. Pairing input capture: on `button_changed(button_state, has_changed)` with
`mitm_queue` non-empty and `buttons = button_state & has_changed`, a newly pressed button 1
resolves the head with accept; otherwise a newly pressed button 2 resolves it with reject;
and when neither is newly pressed the pairing queue is untouched and no call is made: a
newly pressed button 3 sets the start flag to `true` and nothing else, and without it the
state is unchanged. -/
theorem button_changed_while_pending (button_state has_changed : Nat) (s : State)
    (hq : s.mitm_queue ≠ []) :
    ((button_state &&& has_changed) &&& KEY_PAIRING_ACCEPT ≠ 0 →
        button_changed true button_state has_changed s = num_comp_reply true s)
      ∧ ((button_state &&& has_changed) &&& KEY_PAIRING_ACCEPT = 0 →
          (button_state &&& has_changed) &&& KEY_PAIRING_REJECT ≠ 0 →
          button_changed true button_state has_changed s = num_comp_reply false s)
      ∧ ((button_state &&& has_changed) &&& KEY_PAIRING_ACCEPT = 0 →
          (button_state &&& has_changed) &&& KEY_PAIRING_REJECT = 0 →
          ((button_state &&& has_changed) &&& TOGGLE_START ≠ 0 →
              button_changed true button_state has_changed s = { s with start := true })
            ∧ ((button_state &&& has_changed) &&& TOGGLE_START = 0 →
              button_changed true button_state has_changed s = s)) := by
  rw [button_changed_pending button_state has_changed s hq]
  refine ⟨?_, ?_, ?_⟩
  · intro ha
    rw [if_pos ha]
  · intro ha hb
    rw [if_neg (by simp [ha]), if_pos hb]
  · intro ha hb
    constructor
    · intro hc
      rw [if_neg (by simp [ha]), if_neg (by simp [hb]), if_pos hc]
    · intro hc
      rw [if_neg (by simp [ha]), if_neg (by simp [hb]), if_neg (by simp [hc])]

/-- Witness of amended C17: two requests pending; button 2 is newly pressed (button 3 is
held but has not changed). -/
theorem button_changed_while_pending_witness :
    (confirm_all ⟨2, 1, true⟩ [⟨1, 111111⟩, ⟨2, 222222⟩] (main_init ⟨2, 1, true⟩)).mitm_queue
        ≠ []
      ∧ button_changed true 6 2
          (confirm_all ⟨2, 1, true⟩ [⟨1, 111111⟩, ⟨2, 222222⟩] (main_init ⟨2, 1, true⟩))
        = num_comp_reply false
          (confirm_all ⟨2, 1, true⟩ [⟨1, 111111⟩, ⟨2, 222222⟩] (main_init ⟨2, 1, true⟩)) :=
  ⟨by decide,
    (button_changed_while_pending 6 2
      (confirm_all ⟨2, 1, true⟩ [⟨1, 111111⟩, ⟨2, 222222⟩] (main_init ⟨2, 1, true⟩))
      (by decide)).2.1 (by decide) (by decide)⟩

/-- C18, as stated, fails: with no request pending and the start flag `true`, a press of
button 3 leaves the flag `true`. -/
theorem button_three_does_not_clear_start :
    ({ main_init ⟨2, 1, true⟩ with start := true } : State).mitm_queue = []
      ∧ (DK_BTN3_MSK &&& DK_BTN3_MSK) &&& TOGGLE_START ≠ 0
      ∧ (button_changed true DK_BTN3_MSK DK_BTN3_MSK
          { main_init ⟨2, 1, true⟩ with start := true }).start = true := by
  decide

/-- C18, amended. With `mitm_queue` empty, a newly pressed button 3 sets the start flag to
`true` and changes nothing else (so the flag goes from `false` to `true`, stays `true`, and
a second press changes nothing); a press without button 3, in particular one of only
buttons 1 and 2, changes no state and makes no call. -/
theorem button_changed_while_idle (security_enabled : Bool) (button_state has_changed : Nat)
    (s : State) (hq : s.mitm_queue = []) :
    ((button_state &&& has_changed) &&& TOGGLE_START ≠ 0 →
        button_changed security_enabled button_state has_changed s = { s with start := true }
          ∧ button_changed security_enabled button_state has_changed
              (button_changed security_enabled button_state has_changed s)
            = button_changed security_enabled button_state has_changed s)
      ∧ ((button_state &&& has_changed) &&& TOGGLE_START = 0 →
          button_changed security_enabled button_state has_changed s = s)
      ∧ ((button_state &&& has_changed = KEY_PAIRING_ACCEPT
            ∨ button_state &&& has_changed = KEY_PAIRING_REJECT
            ∨ button_state &&& has_changed = KEY_PAIRING_ACCEPT ||| KEY_PAIRING_REJECT) →
          button_changed security_enabled button_state has_changed s = s) := by
  have hidle := button_changed_idle security_enabled button_state has_changed s hq
  refine ⟨?_, ?_, ?_⟩
  · intro hc
    have h1 : button_changed security_enabled button_state has_changed s
        = { s with start := true } := by
      rw [hidle, if_pos hc]
    refine ⟨h1, ?_⟩
    rw [h1, button_changed_idle security_enabled button_state has_changed
      { s with start := true } hq, if_pos hc]
  · intro hc
    rw [hidle, if_neg (by simp [hc])]
  · intro hab
    have hc : (button_state &&& has_changed) &&& TOGGLE_START = 0 := by
      rcases hab with h | h | h <;> rw [h] <;> decide
    rw [hidle, if_neg (by simp [hc])]

/-- Witness of amended C18: nothing pending, start flag `false`, button 3 newly pressed. -/
theorem button_changed_while_idle_witness :
    (main_init ⟨2, 1, true⟩).mitm_queue = []
      ∧ button_changed true 4 4 (main_init ⟨2, 1, true⟩)
        = { main_init ⟨2, 1, true⟩ with start := true } :=
  ⟨rfl, ((button_changed_while_idle true 4 4 (main_init ⟨2, 1, true⟩) rfl).1 (by decide)).1⟩

/-- C19. Report fan-out: one `send_dummy_mouse_buttons_report(c)`, `c` a byte, makes exactly
one `bt_hids_inp_rep_send` call per occupied slot, in slot order, whatever the slot's mode
and whatever the sends return, each with report index 0 and a report of 20 bytes all equal
to `c`; it makes no call for an empty slot and changes nothing else in the state. -/
theorem report_fan_out (c : Nat) (send_ret : Nat → Int) (s : State) (hc : c < 256) :
    send_dummy_mouse_buttons_report c send_ret s
        = { s with
            calls := s.calls
              ++ (s.conn_mode.filter (fun m => decide (m.conn ≠ NULL))).map
                  (fun m => Call.bt_hids_inp_rep_send m.conn 0 (List.replicate 20 c)) }
      ∧ (List.replicate 20 c).length = 20
      ∧ ∀ b ∈ List.replicate 20 c, b = c := by
  refine ⟨?_, by simp, ?_⟩
  · unfold send_dummy_mouse_buttons_report
    rw [send_loop_calls, Nat.mod_eq_of_lt hc]
    rfl
  · intro b hb
    exact (List.mem_replicate.mp hb).2

/-- Witness of C19: three slots, the first in boot mode, the second empty; every send
fails. -/
theorem report_fan_out_witness :
    (7 < 256)
      ∧ (send_dummy_mouse_buttons_report 7 (fun _ => -1)
          { main_init ⟨3, 1, true⟩ with
            conn_mode := [⟨5, true⟩, ⟨NULL, false⟩, ⟨9, false⟩] }).calls
        = [Call.bt_hids_inp_rep_send 5 0 (List.replicate 20 7),
            Call.bt_hids_inp_rep_send 9 0 (List.replicate 20 7)] :=
  ⟨by decide,
    (congrArg State.calls
      (report_fan_out 7 (fun _ => -1)
        { main_init ⟨3, 1, true⟩ with
          conn_mode := [⟨5, true⟩, ⟨NULL, false⟩, ⟨9, false⟩] } (by decide)).1).trans
      (by decide)⟩

/-- C20. With `CONFIG_BT_HIDS_MAX_CLIENT_COUNT = 1`, after `auth_passkey_confirm(1, 111111)`
and `auth_passkey_confirm(2, 222222)` from the empty queue, one reference on handle 2 has
been taken and not released although no `mitm_queue` entry holds handle 2: the request was
dropped after `bt_conn_ref`. -/
theorem dropped_request_keeps_reference :
    refs_held 2
        (pairing_run ⟨1, 1, true⟩
          [PairingEvent.auth_passkey_confirm 1 111111,
            PairingEvent.auth_passkey_confirm 2 222222]
          (main_init ⟨1, 1, true⟩)).calls = 1
      ∧ entries_of 2
          (pairing_run ⟨1, 1, true⟩
            [PairingEvent.auth_passkey_confirm 1 111111,
              PairingEvent.auth_passkey_confirm 2 222222]
            (main_init ⟨1, 1, true⟩)).mitm_queue = 0 := by
  decide

end PeripheralHids
